import Mathlib

/-!
# Model of the AVS Brain memory subsystem

Shallow embedding of `src/skills/avs-brain/scripts/brain.py` and
`src/skills/avs-brain/scripts/brain_maintenance.py`.

Modelling conventions, fixed once for the whole file:

* SQLite tables are Lean lists of row structures, kept in rowid (insertion)
  order; `SELECT` without `ORDER BY` returns that order, `SELECT ... WHERE p`
  is `List.filter`.
* Timestamps (`datetime('now')` strings, compared lexicographically by
  SQLite) are modelled as `Nat`; each mutating command takes the current
  time `now` as an argument.  `NULL`able columns are `Option`.
* Embedding vectors (float32 blobs) are `List ℚ`; the floating-point cosine
  similarity of `sentence-transformers` vectors is kept abstract: every
  operation that compares embeddings takes an arbitrary similarity function
  `sim : Vec → Vec → ℚ` as a parameter, so theorems quantify over it.
* `generate_id` draws from `secrets.token_hex`; the generated id is passed
  in as an explicit argument.
* Network side effects (`sync_to_avs`, `search_avs`) are modelled with the
  default configuration `AVS_API_KEY = ''`, under which the code skips them.
* The scripts never execute `PRAGMA foreign_keys = ON`, so SQLite's default
  applies: `REFERENCES ... ON DELETE CASCADE` clauses are *not* enforced and
  deletes do not cascade.  `UNIQUE` constraints are always enforced; an
  `INSERT OR REPLACE` first deletes every row conflicting on any unique
  constraint (primary key or the `UNIQUE(from_id,to_id,relation_type)`
  triple), and a plain `UPDATE` that would create a duplicate of a `UNIQUE`
  triple aborts the statement with an `IntegrityError`, which no caller in
  these scripts catches, so the connection is never committed and the store
  is left unchanged.
* `memories.id` is the `PRIMARY KEY`; store states produced by the schema
  have pairwise distinct memory ids, which theorems take as the hypothesis
  `(s.memories.map (·.id)).Nodup` where they need it.
-/

/-- An embedding vector (float32 values modelled as rationals). -/
abbrev Vec := List ℚ

/-- A row of the `memories` table (schema of `init_db` in `brain.py`, plus
the `consolidated_into` and `accessed_at` columns added by `ensure_schema`
in `brain_maintenance.py`). -/
structure MemoryRow where
  id : String
  type : String
  title : String
  content : String
  importance : Int
  tags : List String
  avs_node_id : Option String
  created_at : Nat
  updated_at : Nat
  synced_at : Option Nat
  consolidated_into : Option String
  accessed_at : Option Nat
deriving DecidableEq, Repr

/-- A row of the `embeddings` table. -/
structure EmbeddingRow where
  memory_id : String
  vector : Vec
  model : String
deriving DecidableEq, Repr

/-- A row of the `links` table. -/
structure LinkRow where
  id : String
  from_id : String
  to_id : String
  relation_type : String
  weight : ℚ
  created_at : Nat
deriving DecidableEq, Repr

/-- A row of the `sync_log` table (append-only). -/
structure SyncLogRow where
  memory_id : Option String
  action : String
  status : String
  avs_node_id : Option String
  details : String
  timestamp : Nat
deriving DecidableEq, Repr

/-- The persistent store: the four data tables created by `init_db`. -/
structure Store where
  memories : List MemoryRow
  embeddings : List EmbeddingRow
  links : List LinkRow
  sync_log : List SyncLogRow
deriving DecidableEq, Repr

/-- `VALID_TYPES` from `brain.py`. -/
def VALID_TYPES : List String :=
  ["product", "company", "person", "concept", "decision", "resource", "memory", "conversation"]

/-- `VALID_RELATIONS` from `brain.py`. -/
def VALID_RELATIONS : List String :=
  ["related_to", "depends_on", "implements", "part_of", "supersedes", "used_by", "created_by"]

/-- The tables created by `init_db` in `brain.py` (the only DDL in the
repository; `ensure_schema` only adds columns).  Note there is no
`memories_fts` table. -/
def initTables : List String :=
  ["memories", "embeddings", "links", "sync_log", "brain_meta"]

/-- Look up the embedding vector of a memory id
(`LEFT JOIN embeddings e ON m.id = e.memory_id`). -/
def lookupVec (es : List EmbeddingRow) (i : String) : Option Vec :=
  (es.find? (fun e => e.memory_id == i)).map (·.vector)

/-- `UPDATE memories SET ... WHERE id = ?`. -/
def updateById (i : String) (f : MemoryRow → MemoryRow) (ms : List MemoryRow) : List MemoryRow :=
  ms.map (fun m => if m.id = i then f m else m)

/-- Python `str.lower()` (per-character; ASCII case folding, which is also
what SQLite's default `LIKE` uses). -/
def lowerStr (s : String) : String := String.mk (s.data.map Char.toLower)

/-- Lexicographic comparison by code point: Python `<` on strings. -/
def charListLt : List Char → List Char → Bool
  | [], [] => false
  | [], _ :: _ => true
  | _ :: _, [] => false
  | a :: as, b :: bs => if a < b then true else if b < a then false else charListLt as bs

/-- Python `a < b` on strings. -/
def strLt (a b : String) : Bool := charListLt a.data b.data

/-- Python `s.split(',')`. -/
def splitCommaAux : List Char → List Char → List String
  | [], acc => [String.mk acc.reverse]
  | c :: t, acc =>
    if c = ',' then String.mk acc.reverse :: splitCommaAux t []
    else splitCommaAux t (c :: acc)

/-- Python `s.split(',')`. -/
def splitComma (s : String) : List String := splitCommaAux s.data []

/-- Substring test on character lists (`needle in hay` / SQL `LIKE '%needle%'`). -/
def isSubstr : List Char → List Char → Bool
  | n, [] => n.isEmpty
  | n, c :: t => n.isPrefixOf (c :: t) || isSubstr n t

/-- Python `needle.lower() in hay.lower()`; also models SQLite
`hay LIKE '%needle%'`, which is ASCII-case-insensitive by default. -/
def containsCI (hay needle : String) : Bool :=
  isSubstr (lowerStr needle).data (lowerStr hay).data

/-- `String.intercalate`, structurally. -/
def joinSep (sep : String) : List String → String
  | [] => ""
  | [x] => x
  | x :: y :: t => x ++ sep ++ joinSep sep (y :: t)

/-- The `tags` column as stored: `json.dumps(list_of_tags)`. -/
def tagsJson (ts : List String) : String :=
  "[" ++ joinSep ", " (ts.map (fun t => "\"" ++ t ++ "\"")) ++ "]"

/-- Insertion step of a stable descending sort: `x` is placed before the
first element not strictly greater than it, so that elements equal under
`gt` keep their original relative order (CPython's stable `list.sort`). -/
def insertD (gt : α → α → Bool) (x : α) : List α → List α
  | [] => [x]
  | a :: l => if gt a x then a :: insertD gt x l else x :: a :: l

/-- Stable descending insertion sort by the strict comparison `gt`. -/
def sortD (gt : α → α → Bool) : List α → List α
  | [] => []
  | a :: l => insertD gt a (sortD gt l)

/-- A memory row joined with its (optional) embedding vector, as fetched by
the maintenance and search `SELECT`s. -/
structure MemJ where
  mem : MemoryRow
  vec : Option Vec
deriving DecidableEq, Repr

/-- Sort key of `cmd_consolidate`: `key=lambda x: x['importance'], reverse=True`. -/
def gtImp (a b : MemJ) : Bool := b.mem.importance < a.mem.importance

/-- Sort key of `cmd_duplicates`: `key=lambda x: (x['importance'], x['id']), reverse=True`. -/
def gtImpId (a b : MemJ) : Bool :=
  decide (b.mem.importance < a.mem.importance) ||
    (decide (b.mem.importance = a.mem.importance) && strLt b.mem.id a.mem.id)

/-- `SELECT m.*, e.vector FROM memories m LEFT JOIN embeddings e ...
WHERE m.consolidated_into IS NULL` (no `ORDER BY`): the fetch of
`cmd_consolidate` (before its sort) and of `cmd_duplicates`. -/
def joinActive (s : Store) : List MemJ :=
  (s.memories.filter (fun m => m.consolidated_into.isNone)).map
    (fun m => MemJ.mk m (lookupVec s.embeddings m.id))

/-! ## Hybrid search (`cmd_search`, brain.py) -/

/-- One entry of the ranked result list printed by `cmd_search`. -/
structure SearchRow where
  id : String
  title : String
  content : String
  type : String
  importance : Int
  tags : List String
  avs_node_id : Option String
  score : ℚ
  text_match : ℚ
  semantic_score : ℚ
deriving DecidableEq, Repr

/-- `round(x, 3)` on the modelled rationals (floats round half to even;
the difference is immaterial to every property stated here). -/
def round3 (x : ℚ) : ℚ := ((x * 1000 + 1/2).floor : ℚ) / 1000

/-- `row['content'][:200] + ('...' if len > 200 else '')`. -/
def contentPreview (c : String) : String :=
  if c.length > 200 then String.mk (c.data.take 200) ++ "..." else c

/-- The `WHERE` clause of `cmd_search` exactly as SQLite parses it.  The
code appends `" AND m.type = ?"` to a chain of `OR`s, and since `AND` binds
tighter than `OR` the type filter applies only to the last disjunct
`e.vector IS NOT NULL`. -/
def searchWhere (q : String) (tf : Option String) (j : MemJ) : Bool :=
  containsCI j.mem.title q || containsCI j.mem.content q || containsCI (tagsJson j.mem.tags) q ||
    (j.vec.isSome && (match tf with | none => true | some t => j.mem.type == t))

/-- `text_match`: 1.0 when the query occurs (case-insensitively) in title
or content, else 0.0. -/
def textMatch (q : String) (j : MemJ) : ℚ :=
  if containsCI j.mem.title q || containsCI j.mem.content q then 1 else 0

/-- `semantic_score`: the similarity of the query embedding and the row's
vector, 0.0 when either is missing.  Python's `row['vector']` truthiness
makes a zero-length blob falsy, hence the empty-vector guard. -/
def semScore (qe : Option Vec) (sim : Vec → Vec → ℚ) (j : MemJ) : ℚ :=
  match qe, j.vec with
  | some u, some v => if v.isEmpty then 0 else sim u v
  | _, _ => 0

/-- Scoring loop body of `cmd_search`: lexical flag, semantic similarity,
40/60 combination, inclusion rule `combined > 0.1 or text_match > 0`. -/
def scoreRow (qe : Option Vec) (sim : Vec → Vec → ℚ) (q : String) (j : MemJ) : Option SearchRow :=
  let tm : ℚ := textMatch q j
  let ss : ℚ := semScore qe sim j
  let combined : ℚ := 2/5 * tm + 3/5 * ss
  if 1/10 < combined ∨ 0 < tm then
    some {
      id := j.mem.id,
      title := j.mem.title,
      content := contentPreview j.mem.content,
      type := j.mem.type,
      importance := j.mem.importance,
      tags := j.mem.tags,
      avs_node_id := j.mem.avs_node_id,
      score := round3 combined,
      text_match := round3 tm,
      semantic_score := round3 ss }
  else none

/-- Final sort of `cmd_search`: `key=lambda x: (x['score'], x['importance']),
reverse=True` (on the rounded score, as in the code). -/
def gtScore (a b : SearchRow) : Bool :=
  decide (b.score < a.score ∨ (b.score = a.score ∧ b.importance < a.importance))

/-- `cmd_search` (brain.py, local results; `AVS_API_KEY` unset so the
remote extension is skipped).  `qe` is the query embedding returned by the
provider (None when unavailable).  Note the candidate `WHERE` clause never
mentions `consolidated_into`. -/
def cmd_search (qe : Option Vec) (sim : Vec → Vec → ℚ) (q : String) (tf : Option String)
    (lim : Nat) (s : Store) : List SearchRow :=
  let joined := s.memories.map (fun m => MemJ.mk m (lookupVec s.embeddings m.id))
  let rows := joined.filter (searchWhere q tf)
  let scored := rows.filterMap (scoreRow qe sim q)
  (sortD gtScore scored).take lim

/-! ## Remember / link / forget / sync (brain.py) -/

/-- Result of a successful `cmd_remember`. -/
structure RememberResult where
  store : Store
  id : String
deriving DecidableEq, Repr

/-- `cmd_remember`: validates only the type against `VALID_TYPES` (there is
no emptiness check on title or content), inserts the row (a duplicate
primary key would abort with an `IntegrityError`), and stores the embedding
when the provider returns one (`emb`). -/
def cmd_remember (ty title content : String) (importance : Int) (tags : Option String)
    (newId : String) (emb : Option Vec) (now : Nat) (s : Store) :
    Except String RememberResult :=
  if ty ∉ VALID_TYPES then .error "Invalid type"
  else if s.memories.any (fun m => m.id == newId) then
    .error "UNIQUE constraint failed: memories.id"
  else
    let tagsList := match tags with | none => [] | some t => splitComma t
    let row : MemoryRow :=
      { id := newId,
        type := ty,
        title := title,
        content := content,
        importance := importance,
        tags := tagsList,
        avs_node_id := none,
        created_at := now,
        updated_at := now,
        synced_at := none,
        consolidated_into := none,
        accessed_at := none }
    let s1 := { s with memories := s.memories ++ [row] }
    let s2 := match emb with
      | none => s1
      | some v =>
        { s1 with embeddings :=
            (s1.embeddings.filter (fun e => e.memory_id != newId)) ++
              [⟨newId, v, "all-MiniLM-L6-v2"⟩] }
    .ok ⟨s2, newId⟩

/-- Row equality on the `UNIQUE(from_id, to_id, relation_type)` triple. -/
def tripleEqB (l : LinkRow) (f t rt : String) : Bool :=
  l.from_id == f && l.to_id == t && l.relation_type == rt

/-- `INSERT OR REPLACE INTO links`: delete every row conflicting on the
primary key `id` or on the unique triple, then insert. -/
def insertOrReplaceLink (l : LinkRow) (ls : List LinkRow) : List LinkRow :=
  (ls.filter (fun x => !(x.id == l.id || tripleEqB x l.from_id l.to_id l.relation_type))) ++ [l]

/-- `cmd_link` (brain.py): validates the relation type, requires both
endpoints to exist, then upserts one edge (or two when `bidir`).  `newId`
and `revId` are the generated link ids. -/
def cmd_link (from_id to_id ty : String) (bidir : Bool) (newId revId : String) (now : Nat)
    (s : Store) : Except String Store :=
  if ty ∉ VALID_RELATIONS then .error "Invalid relation type"
  else if (s.memories.find? (fun m => m.id == from_id)).isNone ||
      (s.memories.find? (fun m => m.id == to_id)).isNone then
    .error "Memory not found"
  else
    let ls1 := insertOrReplaceLink
      { id := newId,
        from_id := from_id,
        to_id := to_id,
        relation_type := ty,
        weight := 1,
        created_at := now } s.links
    let ls2 := if bidir then
        insertOrReplaceLink
          { id := revId,
            from_id := to_id,
            to_id := from_id,
            relation_type := ty,
            weight := 1,
            created_at := now } ls1
      else ls1
    .ok { s with links := ls2 }

/-- `cmd_forget` (brain.py): `DELETE FROM memories WHERE id = ?` plus a
sync-log insert.  The connection never runs `PRAGMA foreign_keys = ON`, so
the `ON DELETE CASCADE` clauses of the schema are not enforced: embedding
and link rows referencing the id are left in place. -/
def cmd_forget (i : String) (reason : Option String) (now : Nat) (s : Store) :
    Except String Store :=
  match s.memories.find? (fun m => m.id == i) with
  | none => .error "Memory not found"
  | some row =>
    .ok { s with
      memories := s.memories.filter (fun m => m.id != i),
      sync_log := s.sync_log ++
        [⟨some i, "delete", "success", none, reason.getD ("Deleted: " ++ row.title), now⟩] }

/-- The pending-push predicate of `cmd_sync` / `cmd_stats`:
`importance >= 70 AND (avs_node_id IS NULL OR updated_at > synced_at)`
(an SQL comparison against a NULL `synced_at` is not true). -/
def syncPending (m : MemoryRow) : Bool :=
  decide (70 ≤ m.importance) &&
    (m.avs_node_id.isNone ||
      (match m.synced_at with | none => false | some ts => decide (ts < m.updated_at)))

/-- The ids selected by the push phase of `cmd_sync`. -/
def pendingSyncIds (s : Store) : List String :=
  (s.memories.filter syncPending).map (·.id)

/-! ## Decay (`cmd_decay`, brain_maintenance.py) -/

/-- Eligibility filter of `cmd_decay`: `importance > 10 AND (accessed_at IS
NULL OR accessed_at < cutoff) AND created_at < cutoff AND consolidated_into
IS NULL`. -/
def decayEligible (cutoff : Nat) (m : MemoryRow) : Bool :=
  decide (10 < m.importance) &&
    (match m.accessed_at with | none => true | some a => decide (a < cutoff)) &&
    decide (m.created_at < cutoff) && m.consolidated_into.isNone

/-- `max(10, importance - rate)`. -/
def decayNew (rate : Int) (m : MemoryRow) : Int := max 10 (m.importance - rate)

/-- Result record of `cmd_decay`. -/
structure DecayResult where
  store : Store
  memories_decayed : Nat
deriving DecidableEq, Repr

/-- `cmd_decay` (brain_maintenance.py): fetch the eligible rows, skip
(uncounted) the ones whose new importance equals the current one, and for
the rest issue `UPDATE memories SET importance = ?, updated_at =
datetime('now') WHERE id = ?`.  `cutoff` is the precomputed
`now - days` timestamp. -/
def cmd_decay (rate : Int) (cutoff : Nat) (dry : Bool) (now : Nat) (s : Store) : DecayResult :=
  let elig := s.memories.filter (decayEligible cutoff)
  let changed := elig.filter (fun m => decide (decayNew rate m ≠ m.importance))
  let ms := if dry then s.memories else
    changed.foldl (fun acc d =>
      updateById d.id (fun m => { m with importance := decayNew rate d, updated_at := now }) acc)
      s.memories
  ⟨{ s with memories := ms }, changed.length⟩

/-! ## Consolidation (`cmd_consolidate`, brain_maintenance.py) -/

/-- Inner loop of the consolidation clustering for a seed of type `ty` and
vector `v`: walk the remaining rows, skipping rows whose id is already in
`used`, rows of a different type and rows without a vector, absorbing every
row with similarity `≥ t` and marking its id used. -/
def collectC (sim : Vec → Vec → ℚ) (t : ℚ) (ty : String) (v : Vec) :
    List MemJ → List String → (List MemJ × List String)
  | [], used => ([], used)
  | n :: rest, used =>
    if n.mem.id ∈ used then collectC sim t ty v rest used
    else if n.mem.type ≠ ty then collectC sim t ty v rest used
    else match n.vec with
      | none => collectC sim t ty v rest used
      | some v2 =>
        if t ≤ sim v v2 then
          let pr := collectC sim t ty v rest (n.mem.id :: used)
          (n :: pr.1, pr.2)
        else collectC sim t ty v rest used

/-- Outer loop of the consolidation clustering: each not-yet-used row with a
vector seeds a cluster (the seed id is marked used before the inner scan);
clusters of size 1 are dropped but their seed stays marked. -/
def clustersC (sim : Vec → Vec → ℚ) (t : ℚ) : List MemJ → List String → List (List MemJ)
  | [], _ => []
  | m :: rest, used =>
    if m.mem.id ∈ used then clustersC sim t rest used
    else match m.vec with
      | none => clustersC sim t rest used
      | some v =>
        let pr := collectC sim t m.mem.type v rest (m.mem.id :: used)
        if pr.1.isEmpty then clustersC sim t rest pr.2
        else (m :: pr.1) :: clustersC sim t rest pr.2

/-- The fetched-and-sorted candidate list of `cmd_consolidate`
(`ORDER BY m.importance DESC`, a stable sort in this model; SQLite leaves
the tie order unspecified). -/
def fetchConsolidate (s : Store) : List MemJ := sortD gtImp (joinActive s)

/-- The clusters found by `cmd_consolidate` on store `s`. -/
def consolidationClusters (sim : Vec → Vec → ℚ) (t : ℚ) (s : Store) : List (List MemJ) :=
  clustersC sim t (fetchConsolidate s) []

/-- `combined_content`: append each other member's content unless it is
already a substring of the accumulated content. -/
def combineContent (base : MemJ) (others : List MemJ) : String :=
  others.foldl
    (fun acc o => if isSubstr o.mem.content.data acc.data then acc
      else acc ++ "\n\n---\n" ++ o.mem.content)
    base.mem.content

/-- Tag-set union (`set()` union in the source, whose iteration order is
unspecified; modelled as order-preserving de-duplication). -/
def combineTags (base : MemJ) (others : List MemJ) : List String :=
  (base.mem.tags ++ (others.map (·.mem.tags)).flatten).dedup

/-- The two `UPDATE` statements of one consolidation cluster: the
highest-importance member (head after the stable in-cluster sort) gets the
combined content and tags, every other member gets
`consolidated_into = base.id`; both updates set `updated_at = now`. -/
def clusterUpdate (now : Nat) (c : List MemJ) (ms : List MemoryRow) : List MemoryRow :=
  match sortD gtImp c with
  | [] => ms
  | base :: others =>
    let ms1 := updateById base.mem.id
      (fun m => { m with
        content := combineContent base others,
        tags := combineTags base others,
        updated_at := now }) ms
    others.foldl
      (fun acc o => updateById o.mem.id
        (fun m => { m with consolidated_into := some base.mem.id, updated_at := now }) acc)
      ms1

/-- Result record of `cmd_consolidate`.  In a dry run the counting
statement is skipped (`continue` fires first), so it reports 0. -/
structure ConsolidateResult where
  store : Store
  clusters_found : Nat
  memories_consolidated : Nat
  dry_run : Bool
deriving DecidableEq, Repr

/-- `cmd_consolidate` (brain_maintenance.py). -/
def cmd_consolidate (sim : Vec → Vec → ℚ) (t : ℚ) (dry : Bool) (now : Nat) (s : Store) :
    ConsolidateResult :=
  let cs := consolidationClusters sim t s
  if dry then ⟨s, cs.length, 0, true⟩
  else
    ⟨{ s with memories := cs.foldl (fun ms c => clusterUpdate now c ms) s.memories },
      cs.length, (cs.map (fun c => c.length - 1)).sum, false⟩

/-! ## Deduplication (`cmd_duplicates`, brain_maintenance.py) -/

/-- Duplicate test of `cmd_duplicates`: case-insensitive exact title match,
or cosine similarity `≥ t` when both vectors exist (independent of type). -/
def dupMatch (sim : Vec → Vec → ℚ) (t : ℚ) (m n : MemJ) : Bool :=
  (lowerStr m.mem.title == lowerStr n.mem.title) ||
    (match m.vec, n.vec with
      | some v1, some v2 => decide (t ≤ sim v1 v2)
      | _, _ => false)

/-- Inner loop of the duplicate grouping for seed `m`. -/
def collectD (sim : Vec → Vec → ℚ) (t : ℚ) (m : MemJ) :
    List MemJ → List String → (List MemJ × List String)
  | [], checked => ([], checked)
  | n :: rest, checked =>
    if n.mem.id ∈ checked then collectD sim t m rest checked
    else if dupMatch sim t m n then
      let pr := collectD sim t m rest (n.mem.id :: checked)
      (n :: pr.1, pr.2)
    else collectD sim t m rest checked

/-- Outer loop of the duplicate grouping (the seed id is marked checked
only when its group has size > 1, as in the source). -/
def dupGroups (sim : Vec → Vec → ℚ) (t : ℚ) : List MemJ → List String → List (List MemJ)
  | [], _ => []
  | m :: rest, checked =>
    if m.mem.id ∈ checked then dupGroups sim t rest checked
    else
      let pr := collectD sim t m rest checked
      if pr.1.isEmpty then dupGroups sim t rest pr.2
      else (m :: pr.1) :: dupGroups sim t rest (m.mem.id :: pr.2)

/-- The duplicate groups found by `cmd_duplicates` on store `s`. -/
def dedupGroups (sim : Vec → Vec → ℚ) (t : ℚ) (s : Store) : List (List MemJ) :=
  dupGroups sim t (joinActive s) []

/-- Whether a link list violates `UNIQUE(from_id, to_id, relation_type)`. -/
def hasDupTriple (ls : List LinkRow) : Bool :=
  !(decide (ls.Pairwise (fun a b =>
    ¬(a.from_id = b.from_id ∧ a.to_id = b.to_id ∧ a.relation_type = b.relation_type))))

/-- `UPDATE links SET to_id = keepId WHERE to_id = remId`: a plain update;
if the result duplicates a unique triple SQLite aborts the statement with
`IntegrityError: UNIQUE constraint failed`, which `cmd_duplicates` does not
catch, so nothing is committed. -/
def repointTo (keepId remId : String) (ls : List LinkRow) : Except String (List LinkRow) :=
  let updated := ls.map (fun l => if l.to_id = remId then { l with to_id := keepId } else l)
  if hasDupTriple updated then
    .error "UNIQUE constraint failed: links.from_id, links.to_id, links.relation_type"
  else .ok updated

/-- `UPDATE links SET from_id = keepId WHERE from_id = remId`. -/
def repointFrom (keepId remId : String) (ls : List LinkRow) : Except String (List LinkRow) :=
  let updated := ls.map (fun l => if l.from_id = remId then { l with from_id := keepId } else l)
  if hasDupTriple updated then
    .error "UNIQUE constraint failed: links.from_id, links.to_id, links.relation_type"
  else .ok updated

/-- `UPDATE memories SET consolidated_into = ?, updated_at = datetime('now')
WHERE id = ?` for one removed duplicate. -/
def markConsolidated (keepId remId : String) (now : Nat) (ms : List MemoryRow) :
    List MemoryRow :=
  updateById remId (fun m => { m with consolidated_into := some keepId, updated_at := now }) ms

/-- Merge one removed duplicate into the survivor: re-point incoming links,
re-point outgoing links, then tombstone the memory. -/
def mergeOne (now : Nat) (keepId remId : String) (st : List LinkRow × List MemoryRow) :
    Except String (List LinkRow × List MemoryRow) :=
  match repointTo keepId remId st.1 with
  | .error e => .error e
  | .ok ls1 =>
    match repointFrom keepId remId ls1 with
    | .error e => .error e
    | .ok ls2 => .ok (ls2, markConsolidated keepId remId now st.2)

/-- Merge every removed member of one group into its survivor. -/
def mergeList (now : Nat) (keepId : String) :
    List MemJ → (List LinkRow × List MemoryRow) → Except String (List LinkRow × List MemoryRow)
  | [], st => .ok st
  | r :: rs, st =>
    match mergeOne now keepId r.mem.id st with
    | .error e => .error e
    | .ok st1 => mergeList now keepId rs st1

/-- Process every duplicate group: within a group the survivor is the head
after sorting by `(importance, id)` descending. -/
def mergeGroups (now : Nat) :
    List (List MemJ) → (List LinkRow × List MemoryRow) →
      Except String (List LinkRow × List MemoryRow)
  | [], st => .ok st
  | g :: gs, st =>
    match sortD gtImpId g with
    | [] => mergeGroups now gs st
    | keep :: remove =>
      match mergeList now keep.mem.id remove st with
      | .error e => .error e
      | .ok st1 => mergeGroups now gs st1

/-- Result record of `cmd_duplicates` (dry runs report 0 merged, as the
counting statement sits below the `continue`). -/
structure DupResult where
  store : Store
  duplicate_groups : Nat
  memories_merged : Nat
  dry_run : Bool
deriving DecidableEq, Repr

/-- `cmd_duplicates` (brain_maintenance.py).  An uncaught `IntegrityError`
from a link re-point aborts the whole command before any commit. -/
def cmd_duplicates (sim : Vec → Vec → ℚ) (t : ℚ) (dry : Bool) (now : Nat) (s : Store) :
    Except String DupResult :=
  let groups := dedupGroups sim t s
  if dry then .ok ⟨s, groups.length, 0, true⟩
  else match mergeGroups now groups (s.links, s.memories) with
    | .error e => .error e
    | .ok (ls, ms) =>
      .ok ⟨{ s with links := ls, memories := ms },
        groups.length, (groups.map (fun g => g.length - 1)).sum, false⟩

/-! ## Optimize (`cmd_optimize`, brain_maintenance.py) -/

/-- Result record of `cmd_optimize` (page counts are storage-level and
carry no logical content; modelled as zero). -/
structure OptimizeResult where
  size_before_kb : Nat
  size_after_kb : Nat
  saved_kb : Nat
deriving DecidableEq, Repr

/-- `cmd_optimize` (brain_maintenance.py): after the size query and
`VACUUM` (no logical change) it executes
`INSERT INTO memories_fts(memories_fts) VALUES('rebuild')`; no code in the
repository ever creates a `memories_fts` table, so against any store whose
tables are the ones `init_db` creates the statement raises
`OperationalError: no such table: memories_fts`. -/
def cmd_optimize (tables : List String) (s : Store) : Except String (Store × OptimizeResult) :=
  if "memories_fts" ∈ tables then .ok (s, ⟨0, 0, 0⟩)
  else .error "no such table: memories_fts"

/-! ## Derived id sets used by the theorems -/

/-- The ids tombstoned by one consolidation cluster (everything after the
survivor in the in-cluster sort). -/
def clusterTailIds (c : List MemJ) : List String :=
  ((sortD gtImp c).tail).map (·.mem.id)

/-- All ids tombstoned by a consolidation run. -/
def absorbedIds (cs : List (List MemJ)) : List String :=
  (cs.map clusterTailIds).flatten

/-- All ids written by a consolidation run (survivors and absorbed). -/
def touchedIds (cs : List (List MemJ)) : List String :=
  (cs.map (fun c => c.map (·.mem.id))).flatten

/-- The ids removed (tombstoned) by a deduplication run. -/
def removedIdsD (gs : List (List MemJ)) : List String :=
  (gs.map (fun g => ((sortD gtImpId g).tail).map (·.mem.id))).flatten

/-- `Except.isOk`. -/
def exceptOk : Except String α → Bool
  | .ok _ => true
  | .error _ => false

/-! ## Concrete instances used by counterexamples and witnesses -/

/-- Abbreviation for building concrete memory rows. -/
def mkMem (i ty ti co : String) (imp : Int) (cons : Option String) : MemoryRow :=
  { id := i, type := ty, title := ti, content := co, importance := imp, tags := [],
    avs_node_id := none, created_at := 0, updated_at := 0, synced_at := none,
    consolidated_into := cons, accessed_at := none }

/-- A similarity function that is constantly 0 (vectors never similar). -/
def simZero : Vec → Vec → ℚ := fun _ _ => 0

/-- A similarity function that is constantly 1 (vectors always similar). -/
def simOne : Vec → Vec → ℚ := fun _ _ => 1

/-- Store with a single memory that is already consolidated (tombstoned)
into `m0` and whose title matches the query `alpha`. -/
def storeC1 : Store :=
  ⟨[mkMem "m1" "concept" "alpha note" "body" 50 (some "m0")], [], [], []⟩

/-- Store for the dedup-collision counterexample: `A` and `B` are duplicates
by case-insensitive title, and `C` links to both, so re-pointing the link
`(C, B, related_to)` to `A` collides with the existing `(C, A, related_to)`. -/
def storeC2 : Store :=
  ⟨[mkMem "A" "concept" "x" "ca" 60 none, mkMem "B" "person" "X" "cb" 50 none,
    mkMem "C" "concept" "other" "cc" 50 none], [],
   [⟨"l1", "C", "B", "related_to", 1, 0⟩, ⟨"l2", "C", "A", "related_to", 1, 0⟩], []⟩

/-- Store for the `from_id` direction of the dedup-collision witness: `A`
and `B` are duplicates by case-insensitive title, no link points to `B`
(so the `to_id` re-point succeeds), and both `A` and `B` link out to `C`,
so re-pointing `(B, C, related_to)` to `(A, C, related_to)` collides with
the existing row. -/
def storeC2f : Store :=
  ⟨[mkMem "A" "concept" "x" "ca" 60 none, mkMem "B" "person" "X" "cb" 50 none], [],
   [⟨"l1", "B", "C", "related_to", 1, 0⟩, ⟨"l2", "A", "C", "related_to", 1, 0⟩], []⟩

/-- Store with a memory `m1` that has an embedding row and an outgoing link. -/
def storeC3 : Store :=
  ⟨[mkMem "m1" "concept" "t1" "c1" 50 none, mkMem "m2" "concept" "t2" "c2" 50 none],
   [⟨"m1", [1], "all-MiniLM-L6-v2"⟩], [⟨"l1", "m1", "m2", "related_to", 1, 0⟩], []⟩

/-- Store with a single `person` memory whose title contains the query `kw`. -/
def storeC5 : Store :=
  ⟨[mkMem "m1" "person" "kw doc" "body" 50 none], [], [], []⟩

/-- Store with one stale memory of importance 50 (eligible for decay). -/
def storeC8 : Store :=
  ⟨[mkMem "m1" "concept" "t" "c" 50 none], [], [], []⟩

/-- Store with two same-type memories both carrying embeddings. -/
def storeC7 : Store :=
  ⟨[mkMem "a" "concept" "t1" "c1" 60 none, mkMem "b" "concept" "t2" "c2" 50 none],
   [⟨"a", [1], "m"⟩, ⟨"b", [1], "m"⟩], [], []⟩

/-- The empty store (fresh `init_db`). -/
def storeEmpty : Store := ⟨[], [], [], []⟩

/-- A store with every `consolidated_into` tombstone erased (used to state
that `cmd_search` is insensitive to that column). -/
def clearConsolidated (s : Store) : Store :=
  { s with memories := s.memories.map (fun m => { m with consolidated_into := none }) }

/-- Store with two unlinked memories `A` and `B`. -/
def storeC9 : Store :=
  ⟨[mkMem "A" "concept" "ta" "ca" 50 none, mkMem "B" "concept" "tb" "cb" 50 none], [], [], []⟩

/-- Number of link rows carrying a given `(from_id, to_id, relation_type)`
triple. -/
def countTriple (f t rt : String) (ls : List LinkRow) : Nat :=
  (ls.filter (fun l => tripleEqB l f t rt)).length

/-! ## Per-row effect functions and further concrete instances -/

/-- The per-row effect of a non-dry decay run: eligible rows whose new
importance differs get the new importance and a fresh `updated_at`; every
other row is untouched. -/
def decayRowF (rate : Int) (cutoff now : Nat) (m : MemoryRow) : MemoryRow :=
  if decayEligible cutoff m && decide (decayNew rate m ≠ m.importance) then
    { m with importance := decayNew rate m, updated_at := now }
  else m

def rowC (now : Nat) (c : List MemJ) (m : MemoryRow) : MemoryRow :=
  match sortD gtImp c with
  | [] => m
  | base :: others =>
    let m1 := if m.id = base.mem.id then
      { m with
        content := combineContent base others,
        tags := combineTags base others,
        updated_at := now }
      else m
    others.foldl (fun m o => if m.id = o.mem.id then
      { m with
        consolidated_into := some base.mem.id,
        updated_at := now } else m) m1

def applyC (now : Nat) (cs : List (List MemJ)) (m : MemoryRow) : MemoryRow :=
  cs.foldl (fun m c => rowC now c m) m

def rowKey (m : MemoryRow) :
    String × String × Int × Option Nat × Option String × Option Nat × Nat :=
  (m.id, m.type, m.importance, m.synced_at, m.avs_node_id, m.accessed_at, m.created_at)

def rowDGroup (now : Nat) (g : List MemJ) (m : MemoryRow) : MemoryRow :=
  match sortD gtImpId g with
  | [] => m
  | keep :: remove =>
    remove.foldl (fun m r => if m.id = r.mem.id then
      { m with
        consolidated_into := some keep.mem.id,
        updated_at := now } else m) m

def applyD (now : Nat) (gs : List (List MemJ)) (m : MemoryRow) : MemoryRow :=
  gs.foldl (fun m g => rowDGroup now g m) m

/-- A synced high-importance memory (importance 80, `avs_node_id` set,
`updated_at = 10 ≤ synced_at = 50`): not pending before maintenance. -/
def memC10w : MemoryRow :=
  { id := "m1", type := "concept", title := "t", content := "c", importance := 80,
    tags := [], avs_node_id := some "n1", created_at := 0, updated_at := 10,
    synced_at := some 50, consolidated_into := none, accessed_at := none }

/-- Store holding only `memC10w`. -/
def storeC10w : Store := ⟨[memC10w], [], [], []⟩

/-- Like `memC10w` but with importance exactly 70, so one decay step at the
default rate 5 drops it to 65, below the sync threshold. -/
def memC10x : MemoryRow :=
  { id := "m1", type := "concept", title := "t", content := "c", importance := 70,
    tags := [], avs_node_id := some "n1", created_at := 0, updated_at := 10,
    synced_at := some 50, consolidated_into := none, accessed_at := none }

/-- Store holding only `memC10x`. -/
def storeC10x : Store := ⟨[memC10x], [], [], []⟩

/-! ## Helper lemmas -/

lemma scoreRow_of_text {qe : Option Vec} {sim : Vec → Vec → ℚ} {q : String} {j : MemJ}
    (h1 : textMatch q j = 1) :
    scoreRow qe sim q j = some {
      id := j.mem.id,
      title := j.mem.title,
      content := contentPreview j.mem.content,
      type := j.mem.type,
      importance := j.mem.importance,
      tags := j.mem.tags,
      avs_node_id := j.mem.avs_node_id,
      score := round3 (2/5 * 1 + 3/5 * semScore qe sim j),
      text_match := round3 1,
      semantic_score := round3 (semScore qe sim j) } := by
  unfold scoreRow
  rw [h1]
  rw [if_pos (Or.inr one_pos)]

/-! ## Claim C1 -/

/-- C1, counterexample.  The store holds a single memory `m1` whose
`consolidated_into` is `some "m0"` (a tombstoned memory), yet `cmd_search`
returns it in the ranked result list: `cmd_search` never filters on
`consolidated_into`, contradicting the claim that every returned memory has
`consolidated_into` unset. -/
theorem C1_search_returns_consolidated :
    storeC1.memories.map (fun m => m.consolidated_into) = [some "m0"] ∧
    (cmd_search none simZero "alpha" none 10 storeC1).map (·.id) = ["m1"] := by
  refine ⟨rfl, ?_⟩
  have htm : textMatch "alpha" ⟨mkMem "m1" "concept" "alpha note" "body" 50 (some "m0"), none⟩ = 1 :=
    rfl
  have key : cmd_search none simZero "alpha" none 10 storeC1 =
      (sortD gtScore (List.filterMap (scoreRow none simZero "alpha")
        [⟨mkMem "m1" "concept" "alpha note" "body" 50 (some "m0"), none⟩])).take 10 := rfl
  rw [key, List.filterMap_cons, scoreRow_of_text htm]
  rfl

/-- C1, amended.  The hybrid search does not read `consolidated_into` at
all: its output on any store is identical to its output on the same store
with every tombstone erased (so consolidated memories are ranked and
returned exactly like live ones; the exclusion the spec describes exists
only in the maintenance scans). -/
theorem C1_search_ignores_consolidated (qe : Option Vec) (sim : Vec → Vec → ℚ) (q : String)
    (tf : Option String) (lim : Nat) (s : Store) :
    cmd_search qe sim q tf lim (clearConsolidated s) = cmd_search qe sim q tf lim s := by
  simp only [cmd_search, clearConsolidated]
  rw [List.map_map]
  have hfun : ((fun m : MemoryRow => MemJ.mk m (lookupVec s.embeddings m.id)) ∘
      (fun m => { m with consolidated_into := none })) =
      ((fun j : MemJ => MemJ.mk { j.mem with consolidated_into := none } j.vec) ∘
        (fun m : MemoryRow => MemJ.mk m (lookupVec s.embeddings m.id))) := rfl
  rw [hfun, ← List.map_map, List.filter_map, List.filterMap_map]
  rfl

/-! ## Claim C2 (counterexample part) -/

/-- C2, counterexample.  In `storeC2` the memories `A` (importance 60) and
`B` (importance 50) are duplicates by case-insensitive title, and `C` links
to both with `related_to`.  Re-pointing the link `(C, B, related_to)` to
the survivor `A` collides with the existing `(C, A, related_to)` row, and
the merge raises `UNIQUE constraint failed` instead of upserting: the
deduplication does not succeed. -/
theorem C2_dedup_collision_counterexample :
    cmd_duplicates simZero (Rat.divInt 95 100) false 5 storeC2 =
      Except.error "UNIQUE constraint failed: links.from_id, links.to_id, links.relation_type" :=
  rfl

/-! ## Claim C3 -/

/-- C3.  `storeC3` holds memory `m1` with an embedding row and the link
`(m1, m2, related_to)`.  `cmd_forget "m1"` succeeds and removes the memory
row, but the embedding row with `memory_id = "m1"` and the link whose
`from_id = "m1"` both remain: the `ON DELETE CASCADE` clauses are dead
because the connection never enables `PRAGMA foreign_keys`. -/
theorem C3_forget_does_not_cascade :
    (cmd_forget "m1" none 5 storeC3).map
      (fun s2 => (s2.memories.map (·.id), s2.embeddings.map (·.memory_id),
        s2.links.map (fun l => (l.from_id, l.to_id)))) =
    Except.ok (["m2"], ["m1"], [("m1", "m2")]) := rfl

/-! ## Claim C4 -/

/-- C4.  Against any store whose tables are the ones `init_db` creates
(no operation in the repository ever creates another table, in particular
no `memories_fts`), `cmd_optimize` always fails with
`no such table: memories_fts`; it never completes successfully. -/
theorem C4_optimize_always_fails (s : Store) :
    cmd_optimize initTables s = Except.error "no such table: memories_fts" := rfl

/-! ## Claim C5 -/

/-- C5.  Searching `storeC5` for `"kw"` with the kind filter `concept`
returns the memory of kind `person` whose title matches the query: the
appended `AND m.type = ?` binds only to the `e.vector IS NOT NULL`
disjunct, so lexical matches bypass the kind filter. -/
theorem C5_type_filter_leaks :
    (cmd_search none simZero "kw" (some "concept") 10 storeC5).map (·.type) = ["person"] := by
  have htm : textMatch "kw" ⟨mkMem "m1" "person" "kw doc" "body" 50 none, none⟩ = 1 := rfl
  have key : cmd_search none simZero "kw" (some "concept") 10 storeC5 =
      (sortD gtScore (List.filterMap (scoreRow none simZero "kw")
        [⟨mkMem "m1" "person" "kw doc" "body" 50 none, none⟩])).take 10 := rfl
  rw [key, List.filterMap_cons, scoreRow_of_text htm]
  rfl

/-! ## Claim C6 -/

/-- C6, counterexample.  With a valid kind and *empty* title and content,
`cmd_remember` succeeds and inserts the row — there is no emptiness
validation, contradicting the claim that this input fails with a
validation error. -/
theorem C6_empty_title_accepted :
    (cmd_remember "concept" "" "" 50 none "mem_1" none 0 storeEmpty).map
      (fun r => r.store.memories.map (·.id)) = Except.ok ["mem_1"] := rfl

theorem C6_remember_validation (ty title content : String) (imp : Int) (tags : Option String)
    (newId : String) (emb : Option Vec) (now : Nat) (s : Store)
    (hfresh : ∀ m ∈ s.memories, m.id ≠ newId) :
    (ty ∉ VALID_TYPES →
      cmd_remember ty title content imp tags newId emb now s = Except.error "Invalid type") ∧
    (ty ∈ VALID_TYPES → ∃ r, cmd_remember ty title content imp tags newId emb now s = Except.ok r ∧
      r.id = newId ∧ r.store.memories.map (·.id) = s.memories.map (·.id) ++ [newId]) := by
  have hany : (s.memories.any (fun m => m.id == newId)) = false := by
    rw [List.any_eq_false]
    intro m hm
    simp [hfresh m hm]
  constructor
  · intro h
    unfold cmd_remember
    rw [if_pos h]
  · intro h
    unfold cmd_remember
    rw [if_neg (not_not_intro h), hany]
    cases emb with
    | none =>
      refine ⟨_, rfl, rfl, ?_⟩
      simp
    | some v =>
      refine ⟨_, rfl, rfl, ?_⟩
      simp

lemma repointTo_error_of_collision (keepId remId : String) (ls : List LinkRow)
    (hne : keepId ≠ remId)
    (hcol : ∃ l1 ∈ ls, l1.to_id = remId ∧ ∃ l2 ∈ ls,
      l2.from_id = l1.from_id ∧ l2.to_id = keepId ∧ l2.relation_type = l1.relation_type) :
    repointTo keepId remId ls =
      Except.error "UNIQUE constraint failed: links.from_id, links.to_id, links.relation_type" := by
  obtain ⟨l1, h1m, h1t, l2, h2m, hf, ht, hr⟩ := hcol
  have hl12 : l1 ≠ l2 := by
    intro he
    exact hne (by rw [← ht, ← he, h1t])
  have hdup : hasDupTriple
      (ls.map (fun l => if l.to_id = remId then { l with to_id := keepId } else l)) = true := by
    unfold hasDupTriple
    rw [Bool.not_eq_true', decide_eq_false_iff_not]
    intro hpw
    rw [List.pairwise_map] at hpw
    have hR := hpw.forall (by
      intro a b hab hba
      exact hab ⟨hba.1.symm, hba.2.1.symm, hba.2.2.symm⟩) h1m h2m hl12
    rw [if_pos h1t, if_neg (fun hc : l2.to_id = remId => hne (ht.symm.trans hc))] at hR
    exact hR ⟨hf.symm, ht.symm, hr.symm⟩
  simp only [repointTo]
  rw [if_pos hdup]

lemma repointFrom_error_of_collision (keepId remId : String) (ls : List LinkRow)
    (hne : keepId ≠ remId)
    (hcol : ∃ l1 ∈ ls, l1.from_id = remId ∧ ∃ l2 ∈ ls,
      l2.to_id = l1.to_id ∧ l2.from_id = keepId ∧ l2.relation_type = l1.relation_type) :
    repointFrom keepId remId ls =
      Except.error "UNIQUE constraint failed: links.from_id, links.to_id, links.relation_type" := by
  obtain ⟨l1, h1m, h1f, l2, h2m, ht, hf, hr⟩ := hcol
  have hl12 : l1 ≠ l2 := by
    intro he
    exact hne (by rw [← hf, ← he, h1f])
  have hdup : hasDupTriple
      (ls.map (fun l => if l.from_id = remId then { l with from_id := keepId } else l)) = true := by
    unfold hasDupTriple
    rw [Bool.not_eq_true', decide_eq_false_iff_not]
    intro hpw
    rw [List.pairwise_map] at hpw
    have hR := hpw.forall (by
      intro a b hab hba
      exact hab ⟨hba.1.symm, hba.2.1.symm, hba.2.2.symm⟩) h1m h2m hl12
    rw [if_pos h1f, if_neg (fun hc : l2.from_id = remId => hne (hf.symm.trans hc))] at hR
    exact hR ⟨hf.symm, ht.symm, hr.symm⟩
  simp only [repointFrom]
  rw [if_pos hdup]

lemma mergeList_cons (now : Nat) (k : String) (r : MemJ) (rs : List MemJ)
    (st : List LinkRow × List MemoryRow) :
    mergeList now k (r :: rs) st =
      match mergeOne now k r.mem.id st with
      | .error e => .error e
      | .ok st1 => mergeList now k rs st1 := rfl

lemma mergeGroups_cons (now : Nat) (g : List MemJ) (gs : List (List MemJ))
    (st : List LinkRow × List MemoryRow) :
    mergeGroups now (g :: gs) st =
      match sortD gtImpId g with
      | [] => mergeGroups now gs st
      | keep :: remove =>
        match mergeList now keep.mem.id remove st with
        | .error e => .error e
        | .ok st1 => mergeGroups now gs st1 := rfl

lemma mergeList_append (now : Nat) (k : String) :
    ∀ (rs1 rs2 : List MemJ) (st st1 : List LinkRow × List MemoryRow),
    mergeList now k rs1 st = Except.ok st1 →
    mergeList now k (rs1 ++ rs2) st = mergeList now k rs2 st1 := by
  intro rs1
  induction rs1 with
  | nil =>
    intro rs2 st st1 h
    cases h
    rfl
  | cons r rs ih =>
    intro rs2 st st1 h
    rw [mergeList_cons] at h
    rw [List.cons_append, mergeList_cons]
    cases h1 : mergeOne now k r.mem.id st with
    | error e =>
      simp only [h1] at h
      cases h
    | ok st2 =>
      simp only [h1] at h ⊢
      exact ih rs2 st2 st1 h

lemma mergeGroups_append (now : Nat) :
    ∀ (gs1 gs2 : List (List MemJ)) (st st1 : List LinkRow × List MemoryRow),
    mergeGroups now gs1 st = Except.ok st1 →
    mergeGroups now (gs1 ++ gs2) st = mergeGroups now gs2 st1 := by
  intro gs1
  induction gs1 with
  | nil =>
    intro gs2 st st1 h
    cases h
    rfl
  | cons g gs ih =>
    intro gs2 st st1 h
    rw [mergeGroups_cons] at h
    rw [List.cons_append, mergeGroups_cons]
    cases hs : sortD gtImpId g with
    | nil =>
      simp only [hs] at h ⊢
      exact ih gs2 st st1 h
    | cons keep remove =>
      simp only [hs] at h ⊢
      cases h1 : mergeList now keep.mem.id remove st with
      | error e =>
        simp only [h1] at h
        cases h
      | ok st2 =>
        simp only [h1] at h ⊢
        exact ih gs2 st2 st1 h

/-- C2, amended.  Whenever a non-dry deduplication run reaches a
non-survivor `rem` of the group `g` (survivor `keep`) whose re-pointed link
form collides with an existing `(from_id, to_id, relation_type)` triple —
either a link into `rem` colliding under the `to_id` re-point, or, after
the `to_id` re-point succeeded, a link out of `rem` colliding under the
`from_id` re-point — the plain `UPDATE` violates the UNIQUE constraint and
the whole `cmd_duplicates` operation aborts with the uncaught
`IntegrityError`, producing no store at all (nothing is committed). -/
theorem C2_repoint_collision_error (sim : Vec → Vec → ℚ) (t : ℚ) (now : Nat) (s : Store)
    (gs1 gs2 : List (List MemJ)) (g : List MemJ) (keep rem : MemJ) (rs1 rs2 : List MemJ)
    (st1 st2 : List LinkRow × List MemoryRow)
    (hne : keep.mem.id ≠ rem.mem.id)
    (hgroups : dedupGroups sim t s = gs1 ++ g :: gs2)
    (hpre : mergeGroups now gs1 (s.links, s.memories) = Except.ok st1)
    (hsort : sortD gtImpId g = keep :: (rs1 ++ rem :: rs2))
    (hlist : mergeList now keep.mem.id rs1 st1 = Except.ok st2)
    (hcol : (∃ l1 ∈ st2.1, l1.to_id = rem.mem.id ∧ ∃ l2 ∈ st2.1,
        l2.from_id = l1.from_id ∧ l2.to_id = keep.mem.id ∧
        l2.relation_type = l1.relation_type) ∨
      (∃ ls1, repointTo keep.mem.id rem.mem.id st2.1 = Except.ok ls1 ∧
        ∃ l1 ∈ ls1, l1.from_id = rem.mem.id ∧ ∃ l2 ∈ ls1,
          l2.to_id = l1.to_id ∧ l2.from_id = keep.mem.id ∧
          l2.relation_type = l1.relation_type)) :
    cmd_duplicates sim t false now s =
      Except.error
        "UNIQUE constraint failed: links.from_id, links.to_id, links.relation_type" := by
  have hone : mergeOne now keep.mem.id rem.mem.id st2 =
      Except.error
        "UNIQUE constraint failed: links.from_id, links.to_id, links.relation_type" := by
    rcases hcol with hto | ⟨ls1, hok, hfrom⟩
    · unfold mergeOne
      rw [repointTo_error_of_collision keep.mem.id rem.mem.id st2.1 hne hto]
    · unfold mergeOne
      simp only [hok]
      rw [repointFrom_error_of_collision keep.mem.id rem.mem.id ls1 hne hfrom]
  have hml : mergeList now keep.mem.id (rs1 ++ rem :: rs2) st1 =
      Except.error
        "UNIQUE constraint failed: links.from_id, links.to_id, links.relation_type" := by
    rw [mergeList_append now keep.mem.id rs1 (rem :: rs2) st1 st2 hlist]
    rw [mergeList_cons, hone]
  have hmg2 : mergeGroups now (g :: gs2) st1 =
      Except.error
        "UNIQUE constraint failed: links.from_id, links.to_id, links.relation_type" := by
    rw [mergeGroups_cons]
    simp only [hsort]
    rw [hml]
  have hmgAll : mergeGroups now (gs1 ++ g :: gs2) (s.links, s.memories) =
      Except.error
        "UNIQUE constraint failed: links.from_id, links.to_id, links.relation_type" := by
    rw [mergeGroups_append now gs1 (g :: gs2) _ st1 hpre]
    exact hmg2
  have hproj : cmd_duplicates sim t false now s =
      (match mergeGroups now (dedupGroups sim t s) (s.links, s.memories) with
        | .error e => .error e
        | .ok (ls, ms) =>
          .ok ⟨{ s with links := ls, memories := ms },
            (dedupGroups sim t s).length,
            ((dedupGroups sim t s).map (fun g2 => g2.length - 1)).sum, false⟩) := rfl
  rw [hproj, hgroups, hmgAll]

lemma foldl_map_fuse {α β : Type _} (g : β → α → α) :
    ∀ (ds : List β) (ms : List α),
    ds.foldl (fun acc d => acc.map (g d)) ms = ms.map (fun a => ds.foldl (fun a d => g d a) a) := by
  intro ds
  induction ds with
  | nil => intro ms; simp
  | cons d ds ih =>
    intro ms
    simp only [List.foldl_cons]
    rw [ih, List.map_map]
    rfl

lemma rowFold_skip (u : MemoryRow → MemoryRow → MemoryRow) :
    ∀ (ds : List MemoryRow) (m : MemoryRow), (∀ d ∈ ds, d.id ≠ m.id) →
    ds.foldl (fun m d => if m.id = d.id then u d m else m) m = m := by
  intro ds
  induction ds with
  | nil => intro m _; rfl
  | cons d ds ih =>
    intro m h
    simp only [List.foldl_cons]
    rw [if_neg (fun hc => h d (by simp) hc.symm)]
    exact ih m (fun d hd => h d (by simp [hd]))

lemma nodup_map_inj {α β : Type _} {f : α → β} {l : List α}
    (hnd : (l.map f).Nodup) {a b : α} (ha : a ∈ l) (hb : b ∈ l) (hfe : f a = f b) : a = b := by
  exact List.inj_on_of_nodup_map hnd ha hb hfe

lemma rowFold_hit (u : MemoryRow → MemoryRow → MemoryRow)
    (ds : List MemoryRow) (m : MemoryRow)
    (hmem : m ∈ ds) (hnd : (ds.map (·.id)).Nodup)
    (hid : (u m m).id = m.id) :
    ds.foldl (fun m d => if m.id = d.id then u d m else m) m = u m m := by
  obtain ⟨l1, l2, rfl⟩ := List.append_of_mem hmem
  rw [List.map_append, List.map_cons] at hnd
  have hdisj := List.disjoint_of_nodup_append hnd
  have hnd2 := (List.nodup_append.mp hnd).2.1
  have hl1 : ∀ d ∈ l1, d.id ≠ m.id := by
    intro d hd hc
    exact hdisj (List.mem_map_of_mem _ hd) (by simp [hc])
  have hl2 : ∀ d ∈ l2, d.id ≠ m.id := by
    intro d hd hc
    rw [List.nodup_cons] at hnd2
    exact hnd2.1 (by rw [← hc]; exact List.mem_map_of_mem _ hd)
  rw [List.foldl_append, rowFold_skip u l1 m hl1, List.foldl_cons, if_pos rfl]
  refine rowFold_skip u l2 (u m m) ?_
  intro d hd hc
  exact hl2 d hd (hc.trans hid)

lemma cmd_decay_memories (rate : Int) (cutoff now : Nat) (s : Store)
    (hids : (s.memories.map (·.id)).Nodup) :
    (cmd_decay rate cutoff false now s).store.memories =
      s.memories.map (decayRowF rate cutoff now) := by
  have hsub : List.Sublist ((s.memories.filter (decayEligible cutoff)).filter
      (fun m => decide (decayNew rate m ≠ m.importance))) s.memories :=
    (List.filter_sublist _).trans (List.filter_sublist _)
  have hnd : (((s.memories.filter (decayEligible cutoff)).filter
      (fun m => decide (decayNew rate m ≠ m.importance))).map (·.id)).Nodup :=
    hids.sublist (hsub.map _)
  have h1 := foldl_map_fuse
    (fun (d : MemoryRow) (m : MemoryRow) =>
      if m.id = d.id then { m with importance := decayNew rate d, updated_at := now } else m)
    ((s.memories.filter (decayEligible cutoff)).filter
      (fun m => decide (decayNew rate m ≠ m.importance)))
    s.memories
  refine h1.trans ?_
  apply List.map_congr_left
  intro m hm
  by_cases hel : m ∈ ((s.memories.filter (decayEligible cutoff)).filter
      (fun m => decide (decayNew rate m ≠ m.importance)))
  · have := rowFold_hit
      (fun d m => { m with importance := decayNew rate d, updated_at := now })
      _ m hel hnd rfl
    rw [this, decayRowF]
    rw [List.mem_filter, List.mem_filter] at hel
    rw [if_pos (by rw [hel.1.2, hel.2]; rfl)]
  · refine (rowFold_skip _ _ m ?_).trans ?_
    · intro d hd hc
      have hdm : d = m := nodup_map_inj hids (hsub.subset hd) hm hc
      exact hel (hdm ▸ hd)
    · rw [decayRowF, if_neg]
      intro hcond
      exact hel (by
        rw [List.mem_filter, List.mem_filter]
        rw [Bool.and_eq_true, decide_eq_true_iff] at hcond
        exact ⟨⟨hm, hcond.1⟩, by simp [hcond.2]⟩)

theorem C8_decay_nonneg_rate (rate : Int) (cutoff now : Nat) (s : Store)
    (hrate : 0 ≤ rate) (hids : (s.memories.map (·.id)).Nodup) :
    (cmd_decay rate cutoff false now s).store.memories =
      s.memories.map (decayRowF rate cutoff now) ∧
    (cmd_decay rate cutoff false now s).memories_decayed =
      ((s.memories.filter (decayEligible cutoff)).filter
        (fun m => decide (decayNew rate m ≠ m.importance))).length ∧
    ∀ m ∈ s.memories,
      (decayRowF rate cutoff now m).importance ≤ m.importance ∧
      ((decayRowF rate cutoff now m).importance < 10 → decayRowF rate cutoff now m = m) ∧
      (decayEligible cutoff m = true → decayNew rate m ≠ m.importance →
        (decayRowF rate cutoff now m).importance = decayNew rate m ∧
        (decayRowF rate cutoff now m).updated_at = now) := by
  refine ⟨cmd_decay_memories rate cutoff now s hids, rfl, ?_⟩
  intro m _
  unfold decayRowF
  by_cases hc : (decayEligible cutoff m && decide (decayNew rate m ≠ m.importance)) = true
  · rw [if_pos hc]
    rw [Bool.and_eq_true] at hc
    have h10 : 10 < m.importance := by
      have helig := hc.1
      unfold decayEligible at helig
      rw [Bool.and_eq_true, Bool.and_eq_true, Bool.and_eq_true] at helig
      exact of_decide_eq_true helig.1.1.1
    refine ⟨?_, ?_, fun _ _ => ⟨rfl, rfl⟩⟩
    · show decayNew rate m ≤ m.importance
      exact max_le (by omega) (by omega)
    · intro hlt
      exact absurd hlt (not_lt.mpr (le_max_left _ _))
  · rw [if_neg hc]
    refine ⟨le_refl _, fun _ => rfl, fun he hne => absurd ?_ hc⟩
    rw [Bool.and_eq_true]
    exact ⟨he, decide_eq_true hne⟩

theorem C8_decay_nonneg_rate_witness :
    ((0:Int) ≤ 5 ∧ (storeC8.memories.map (·.id)).Nodup) ∧
    (cmd_decay 5 100 false 200 storeC8).store.memories.map
      (fun m => (m.importance, m.updated_at)) = [(45, 200)] := by
  refine ⟨⟨by decide, by decide⟩, ?_⟩
  have h := C8_decay_nonneg_rate 5 100 200 storeC8 (by decide) (by decide)
  rw [h.1]
  rfl

/-- C8, counterexample.  `storeC8`'s memory has importance 50 and is
eligible (created before the cutoff, never accessed, not consolidated);
with the negative rate -5 (which the CLI accepts) the decay job sets the
importance to `max(10, 50 - (-5)) = 55`, *raising* it, so "decay never
raises any memory's importance ... for every rate" is false. -/
theorem C8_negative_rate_counterexample :
    storeC8.memories.map (·.importance) = [50] ∧
    (cmd_decay (-5) 10 false 20 storeC8).store.memories.map (·.importance) = [55] := ⟨rfl, rfl⟩

/-- C2, witness for the amended theorem, exercising the `from_id` re-point
direction: in `storeC2f` no link points to `B`, so the `to_id` re-point
succeeds, and `B`'s outgoing `(B, C, related_to)` re-pointed to
`(A, C, related_to)` collides with the existing row, aborting the whole
deduplication. -/
theorem C2_repoint_collision_error_witness :
    dedupGroups simZero (Rat.divInt 95 100) storeC2f =
      [[⟨mkMem "A" "concept" "x" "ca" 60 none, none⟩,
        ⟨mkMem "B" "person" "X" "cb" 50 none, none⟩]] ∧
    cmd_duplicates simZero (Rat.divInt 95 100) false 5 storeC2f =
      Except.error
        "UNIQUE constraint failed: links.from_id, links.to_id, links.relation_type" :=
  ⟨rfl,
    C2_repoint_collision_error simZero (Rat.divInt 95 100) 5 storeC2f [] []
      [⟨mkMem "A" "concept" "x" "ca" 60 none, none⟩,
       ⟨mkMem "B" "person" "X" "cb" 50 none, none⟩]
      ⟨mkMem "A" "concept" "x" "ca" 60 none, none⟩
      ⟨mkMem "B" "person" "X" "cb" 50 none, none⟩
      [] [] (storeC2f.links, storeC2f.memories) (storeC2f.links, storeC2f.memories)
      (by decide) rfl rfl rfl rfl
      (Or.inr ⟨[⟨"l1", "B", "C", "related_to", 1, 0⟩, ⟨"l2", "A", "C", "related_to", 1, 0⟩],
        rfl,
        ⟨"l1", "B", "C", "related_to", 1, 0⟩, List.mem_cons_self _ _, rfl,
        ⟨"l2", "A", "C", "related_to", 1, 0⟩,
        List.mem_cons_of_mem _ (List.mem_cons_self _ _), rfl, rfl, rfl⟩)⟩

/-- C6, witness for the amended theorem. -/
theorem C6_remember_validation_witness :
    (∀ m ∈ storeEmpty.memories, m.id ≠ "mem_1") ∧
    ∃ r, cmd_remember "concept" "T" "C" 50 none "mem_1" none 0 storeEmpty = Except.ok r ∧
      r.id = "mem_1" := by
  have h := C6_remember_validation "concept" "T" "C" 50 none "mem_1" none 0 storeEmpty
    (by intro m hm; cases hm)
  obtain ⟨r, hr, hid, _⟩ := h.2 (by decide)
  exact ⟨(by intro m hm; cases hm), r, hr, hid⟩

/-! ## Claim C9 -/

lemma tripleEqB_iff {l : LinkRow} {f t rt : String} :
    tripleEqB l f t rt = true ↔ (l.from_id = f ∧ l.to_id = t ∧ l.relation_type = rt) := by
  unfold tripleEqB
  simp [and_assoc]

lemma countTriple_insert_self (l : LinkRow) (ls : List LinkRow) :
    countTriple l.from_id l.to_id l.relation_type (insertOrReplaceLink l ls) = 1 := by
  unfold countTriple insertOrReplaceLink
  rw [List.filter_append]
  have h1 : (ls.filter
      (fun x => !(x.id == l.id || tripleEqB x l.from_id l.to_id l.relation_type))).filter
      (fun x => tripleEqB x l.from_id l.to_id l.relation_type) = [] := by
    rw [List.filter_filter]
    apply List.filter_eq_nil_iff.mpr
    intro x _
    by_cases hx : tripleEqB x l.from_id l.to_id l.relation_type = true
    · simp [hx]
    · simp [hx]
  rw [h1]
  have h2 : tripleEqB l l.from_id l.to_id l.relation_type = true := by
    rw [tripleEqB_iff]; exact ⟨rfl, rfl, rfl⟩
  simp [h2]

lemma countTriple_insert_other (l : LinkRow) (ls : List LinkRow) (f t rt : String)
    (hne : ¬(l.from_id = f ∧ l.to_id = t ∧ l.relation_type = rt))
    (hid : ∀ x ∈ ls, x.id ≠ l.id) :
    countTriple f t rt (insertOrReplaceLink l ls) = countTriple f t rt ls := by
  unfold countTriple insertOrReplaceLink
  rw [List.filter_append]
  have h2 : (List.filter (fun x => tripleEqB x f t rt) [l]) = [] := by
    have hl : tripleEqB l f t rt = false := by
      rw [Bool.eq_false_iff]
      intro hc
      exact hne (tripleEqB_iff.mp hc)
    simp [hl]
  rw [h2, List.append_nil, List.filter_filter]
  refine congrArg List.length (List.filter_congr ?_)
  intro a ha
  by_cases hx : tripleEqB a f t rt = true
  · obtain ⟨h1, h2', h3⟩ := tripleEqB_iff.mp hx
    have hnottr : tripleEqB a l.from_id l.to_id l.relation_type = false := by
      rw [Bool.eq_false_iff]
      intro hc
      obtain ⟨g1, g2, g3⟩ := tripleEqB_iff.mp hc
      exact hne ⟨g1 ▸ h1, g2 ▸ h2', g3 ▸ h3⟩
    simp [hx, hnottr, hid a ha]
  · simp [Bool.eq_false_iff.mpr hx]

lemma length_insert_fresh (l : LinkRow) (ls : List LinkRow)
    (hid : ∀ x ∈ ls, x.id ≠ l.id)
    (htr : countTriple l.from_id l.to_id l.relation_type ls = 0) :
    (insertOrReplaceLink l ls).length = ls.length + 1 := by
  unfold insertOrReplaceLink
  rw [List.length_append]
  have : ls.filter (fun x => !(x.id == l.id || tripleEqB x l.from_id l.to_id l.relation_type)) = ls := by
    apply List.filter_eq_self.mpr
    intro x hx
    have h1 : (x.id == l.id) = false := by
      simp [hid x hx]
    have h2 : tripleEqB x l.from_id l.to_id l.relation_type = false := by
      unfold countTriple at htr
      rw [List.length_eq_zero] at htr
      rw [Bool.eq_false_iff]
      intro hc
      have : x ∈ ls.filter (fun y => tripleEqB y l.from_id l.to_id l.relation_type) :=
        List.mem_filter.mpr ⟨hx, hc⟩
      rw [htr] at this
      cases this
    rw [h1, h2]
    rfl
  rw [this]
  rfl

lemma cmd_link_ok (from_id to_id : String) (bidir : Bool) (newId revId : String) (now : Nat)
    (s : Store)
    (hA : ∃ m ∈ s.memories, m.id = from_id) (hB : ∃ m ∈ s.memories, m.id = to_id) :
    cmd_link from_id to_id "related_to" bidir newId revId now s =
      Except.ok { s with links :=
        (if bidir then
          insertOrReplaceLink ⟨revId, to_id, from_id, "related_to", 1, now⟩
            (insertOrReplaceLink ⟨newId, from_id, to_id, "related_to", 1, now⟩ s.links)
        else insertOrReplaceLink ⟨newId, from_id, to_id, "related_to", 1, now⟩ s.links) } := by
  have hfA : (s.memories.find? (fun m => m.id == from_id)).isSome := by
    rw [List.find?_isSome]
    obtain ⟨m, hm, he⟩ := hA
    exact ⟨m, hm, by simp [he]⟩
  have hfB : (s.memories.find? (fun m => m.id == to_id)).isSome := by
    rw [List.find?_isSome]
    obtain ⟨m, hm, he⟩ := hB
    exact ⟨m, hm, by simp [he]⟩
  obtain ⟨v, hv⟩ := Option.isSome_iff_exists.mp hfA
  obtain ⟨w, hw⟩ := Option.isSome_iff_exists.mp hfB
  unfold cmd_link
  rw [if_neg (by decide : ¬("related_to" ∉ VALID_RELATIONS))]
  rw [hv, hw]
  rw [if_neg (by simp)]

/-- C9.  For distinct existing memories `A`, `B`: creating
`(A, B, related_to)` twice (with fresh generated link ids) leaves exactly
one row for that triple, and creating it with `bidirectional=true` leaves
exactly one row for each of `(A,B,related_to)` and `(B,A,related_to)` and
exactly two new rows in total (the generated ids `id3`, `id4` being fresh
and the triples not present before). -/
theorem C9_link_upsert (A B id1 id2 id3 id4 : String) (now1 now2 now3 : Nat) (s : Store)
    (hAB : A ≠ B)
    (hA : ∃ m ∈ s.memories, m.id = A) (hB : ∃ m ∈ s.memories, m.id = B)
    (hid3 : ∀ l ∈ s.links, l.id ≠ id3) (hid4 : ∀ l ∈ s.links, l.id ≠ id4)
    (h34 : id3 ≠ id4)
    (hT1 : countTriple A B "related_to" s.links = 0)
    (hT2 : countTriple B A "related_to" s.links = 0) :
    (∃ s1, cmd_link A B "related_to" false id1 id1 now1 s = Except.ok s1 ∧
      ∃ s2, cmd_link A B "related_to" false id2 id2 now2 s1 = Except.ok s2 ∧
        countTriple A B "related_to" s2.links = 1) ∧
    (∃ s3, cmd_link A B "related_to" true id3 id4 now3 s = Except.ok s3 ∧
      countTriple A B "related_to" s3.links = 1 ∧
      countTriple B A "related_to" s3.links = 1 ∧
      s3.links.length = s.links.length + 2) := by
  constructor
  · refine ⟨_, cmd_link_ok A B false id1 id1 now1 s hA hB, _,
      cmd_link_ok A B false id2 id2 now2 _ hA hB, ?_⟩
    exact countTriple_insert_self ⟨id2, A, B, "related_to", 1, now2⟩ _
  · refine ⟨_, cmd_link_ok A B true id3 id4 now3 s hA hB, ?_, ?_, ?_⟩
    · show countTriple A B "related_to"
        (insertOrReplaceLink ⟨id4, B, A, "related_to", 1, now3⟩
          (insertOrReplaceLink ⟨id3, A, B, "related_to", 1, now3⟩ s.links)) = 1
      rw [countTriple_insert_other]
      · exact countTriple_insert_self ⟨id3, A, B, "related_to", 1, now3⟩ s.links
      · exact fun h => hAB h.1.symm
      · intro x hx
        unfold insertOrReplaceLink at hx
        rcases List.mem_append.mp hx with hx1 | hx2
        · exact hid4 x (List.mem_of_mem_filter hx1)
        · rw [List.mem_singleton] at hx2
          rw [hx2]
          exact h34
    · exact countTriple_insert_self ⟨id4, B, A, "related_to", 1, now3⟩ _
    · show (insertOrReplaceLink ⟨id4, B, A, "related_to", 1, now3⟩
          (insertOrReplaceLink ⟨id3, A, B, "related_to", 1, now3⟩ s.links)).length =
        s.links.length + 2
      rw [length_insert_fresh, length_insert_fresh]
      · exact hid3
      · exact hT1
      · intro x hx
        unfold insertOrReplaceLink at hx
        rcases List.mem_append.mp hx with hx1 | hx2
        · exact hid4 x (List.mem_of_mem_filter hx1)
        · rw [List.mem_singleton] at hx2
          rw [hx2]
          exact h34
      · rw [countTriple_insert_other]
        · exact hT2
        · exact fun h => hAB h.1
        · exact hid3

/-- C9, witness. -/
theorem C9_link_upsert_witness :
    ∃ s3, cmd_link "A" "B" "related_to" true "l3" "l4" 3 storeC9 = Except.ok s3 ∧
      countTriple "A" "B" "related_to" s3.links = 1 ∧
      countTriple "B" "A" "related_to" s3.links = 1 ∧
      s3.links.length = storeC9.links.length + 2 :=
  (C9_link_upsert "A" "B" "i1" "i2" "l3" "l4" 1 2 3 storeC9 (by decide)
    (by decide) (by decide) (by decide) (by decide) (by decide) (by decide) (by decide)).2

lemma insertD_perm (gt : α → α → Bool) (x : α) :
    ∀ l : List α, (insertD gt x l).Perm (x :: l) := by
  intro l
  induction l with
  | nil => exact List.Perm.refl _
  | cons a l ih =>
    unfold insertD
    by_cases h : gt a x = true
    · rw [if_pos h]
      exact (ih.cons a).trans (List.Perm.swap x a l)
    · rw [if_neg h]

lemma sortD_perm (gt : α → α → Bool) : ∀ l : List α, (sortD gt l).Perm l := by
  intro l
  induction l with
  | nil => exact List.Perm.refl _
  | cons a l ih =>
    exact (insertD_perm gt a (sortD gt l)).trans (ih.cons a)

lemma insertD_gtImp_pairwise (x : MemJ) :
    ∀ l : List MemJ, l.Pairwise (fun a b => b.mem.importance ≤ a.mem.importance) →
    (insertD gtImp x l).Pairwise (fun a b => b.mem.importance ≤ a.mem.importance) := by
  intro l
  induction l with
  | nil => intro _; exact List.pairwise_singleton _ _
  | cons a l ih =>
    intro h
    rw [List.pairwise_cons] at h
    unfold insertD
    by_cases hax : gtImp a x = true
    · rw [if_pos hax]
      rw [List.pairwise_cons]
      constructor
      · intro y hy
        rcases List.mem_cons.mp ((insertD_perm gtImp x l).subset hy) with rfl | hy2
        · exact le_of_lt (of_decide_eq_true hax)
        · exact h.1 y hy2
      · exact ih h.2
    · rw [if_neg hax]
      rw [List.pairwise_cons]
      constructor
      · intro y hy
        rcases List.mem_cons.mp hy with rfl | hy2
        · exact le_of_not_lt (fun hc => hax (decide_eq_true hc))
        · exact le_trans (h.1 y hy2) (le_of_not_lt (fun hc => hax (decide_eq_true hc)))
      · rw [List.pairwise_cons]
        exact h

lemma sortD_gtImp_pairwise :
    ∀ l : List MemJ,
    (sortD gtImp l).Pairwise (fun a b => b.mem.importance ≤ a.mem.importance) := by
  intro l
  induction l with
  | nil => exact List.Pairwise.nil
  | cons a l ih => exact insertD_gtImp_pairwise a _ ih

lemma insertD_eq_cons (gt : α → α → Bool) (x : α) :
    ∀ l : List α, (∀ y ∈ l, gt y x = false) → insertD gt x l = x :: l := by
  intro l h
  cases l with
  | nil => rfl
  | cons a l =>
    unfold insertD
    rw [if_neg (by rw [h a (by simp)]; exact Bool.false_ne_true)]

lemma sortD_cons_max (gt : α → α → Bool) (x : α) (l : List α)
    (h : ∀ y ∈ l, gt y x = false) : sortD gt (x :: l) = x :: sortD gt l := by
  show insertD gt x (sortD gt l) = x :: sortD gt l
  exact insertD_eq_cons gt x _ (fun y hy => h y ((sortD_perm gt l).subset hy))

lemma insertD_cons (gt : α → α → Bool) (x a : α) (l : List α) :
    insertD gt x (a :: l) = if gt a x then a :: insertD gt x l else x :: a :: l := rfl

lemma filter_insertD_gtImp_pos (p : MemJ → Bool) (x : MemJ) :
    ∀ m : List MemJ, m.Pairwise (fun a b => b.mem.importance ≤ a.mem.importance) →
    p x = true → (insertD gtImp x m).filter p = insertD gtImp x (m.filter p) := by
  intro m
  induction m with
  | nil => intro _ hpx; simp [insertD, List.filter_cons, hpx]
  | cons a m' ih =>
    intro hsort hpx
    rw [List.pairwise_cons] at hsort
    rw [insertD_cons]
    by_cases hax : gtImp a x = true
    · rw [if_pos hax, List.filter_cons]
      by_cases hpa : p a = true
      · rw [if_pos hpa, List.filter_cons, if_pos hpa]
        rw [insertD_cons, if_pos hax, ih hsort.2 hpx]
      · rw [if_neg hpa, List.filter_cons, if_neg hpa]
        exact ih hsort.2 hpx
    · rw [if_neg hax]
      rw [List.filter_cons, if_pos hpx]
      have hmem : ∀ y ∈ (a :: m').filter p, gtImp y x = false := by
        intro y hy
        have hym := List.mem_of_mem_filter hy
        rcases List.mem_cons.mp hym with rfl | hy2
        · exact Bool.eq_false_iff.mpr hax
        · have h1 : y.mem.importance ≤ a.mem.importance := hsort.1 y hy2
          have h2 : ¬ x.mem.importance < a.mem.importance :=
            fun hc => hax (decide_eq_true hc)
          exact decide_eq_false (by omega)
      rw [insertD_eq_cons gtImp x _ hmem]

lemma filter_insertD_gtImp_neg (p : MemJ → Bool) (x : MemJ) :
    ∀ m : List MemJ, p x = false → (insertD gtImp x m).filter p = m.filter p := by
  intro m
  induction m with
  | nil => simp [insertD, List.filter_cons]
  | cons a m' ih =>
    intro hpx
    rw [insertD_cons]
    by_cases hax : gtImp a x = true
    · rw [if_pos hax, List.filter_cons, List.filter_cons]
      by_cases hpa : p a = true
      · rw [if_pos hpa, if_pos hpa, ih hpx]
      · rw [if_neg hpa, if_neg hpa]
        exact ih hpx
    · rw [if_neg hax, List.filter_cons, if_neg (by rw [hpx]; exact Bool.false_ne_true)]

lemma sortD_gtImp_filter (p : MemJ → Bool) :
    ∀ l : List MemJ, sortD gtImp (l.filter p) = (sortD gtImp l).filter p := by
  intro l
  induction l with
  | nil => rfl
  | cons a l ih =>
    rw [List.filter_cons]
    by_cases hpa : p a = true
    · rw [if_pos hpa]
      show insertD gtImp a (sortD gtImp (l.filter p)) = _
      rw [ih]
      exact (filter_insertD_gtImp_pos p a _ (sortD_gtImp_pairwise l) hpa).symm
    · rw [if_neg hpa]
      rw [ih]
      exact (filter_insertD_gtImp_neg p a _ (Bool.eq_false_iff.mpr hpa)).symm

lemma insertD_gtImp_map (f : MemJ → MemJ)
    (hf : ∀ j, (f j).mem.importance = j.mem.importance) (x : MemJ) :
    ∀ m : List MemJ, insertD gtImp (f x) (m.map f) = (insertD gtImp x m).map f := by
  intro m
  induction m with
  | nil => rfl
  | cons a m' ih =>
    rw [List.map_cons, insertD_cons, insertD_cons]
    have hg : gtImp (f a) (f x) = gtImp a x := by
      unfold gtImp
      rw [hf, hf]
    by_cases hax : gtImp a x = true
    · rw [hg, if_pos hax, if_pos hax, List.map_cons, ih]
    · rw [hg, if_neg hax, if_neg hax]
      rfl

lemma sortD_gtImp_map (f : MemJ → MemJ)
    (hf : ∀ j, (f j).mem.importance = j.mem.importance) :
    ∀ l : List MemJ, sortD gtImp (l.map f) = (sortD gtImp l).map f := by
  intro l
  induction l with
  | nil => rfl
  | cons a l ih =>
    rw [List.map_cons]
    show insertD gtImp (f a) (sortD gtImp (l.map f)) = _
    rw [ih]
    exact insertD_gtImp_map f hf a _

lemma collectC_cons (sim : Vec → Vec → ℚ) (t : ℚ) (ty : String) (v : Vec)
    (n : MemJ) (rest : List MemJ) (used : List String) :
    collectC sim t ty v (n :: rest) used =
      if n.mem.id ∈ used then collectC sim t ty v rest used
      else if n.mem.type ≠ ty then collectC sim t ty v rest used
      else match n.vec with
        | none => collectC sim t ty v rest used
        | some v2 =>
          if t ≤ sim v v2 then
            (n :: (collectC sim t ty v rest (n.mem.id :: used)).1,
             (collectC sim t ty v rest (n.mem.id :: used)).2)
          else collectC sim t ty v rest used := rfl

lemma collectC_fst_subset (sim : Vec → Vec → ℚ) (t : ℚ) (ty : String) (v : Vec) :
    ∀ (l : List MemJ) (used : List String) (y : MemJ),
    y ∈ (collectC sim t ty v l used).1 → y ∈ l := by
  intro l
  induction l with
  | nil => intro used y hy; cases hy
  | cons n rest ih =>
    intro used y hy
    rw [collectC_cons] at hy
    by_cases h1 : n.mem.id ∈ used
    · rw [if_pos h1] at hy
      exact List.mem_cons_of_mem n (ih used y hy)
    · rw [if_neg h1] at hy
      by_cases h2 : n.mem.type ≠ ty
      · rw [if_pos h2] at hy
        exact List.mem_cons_of_mem n (ih used y hy)
      · rw [if_neg h2] at hy
        cases hv : n.vec with
        | none =>
          simp only [hv] at hy
          exact List.mem_cons_of_mem n (ih used y hy)
        | some v2 =>
          simp only [hv] at hy
          by_cases h3 : t ≤ sim v v2
          · rw [if_pos h3] at hy
            rcases List.mem_cons.mp hy with rfl | hy2
            · exact List.mem_cons_self _ _
            · exact List.mem_cons_of_mem n (ih _ y hy2)
          · rw [if_neg h3] at hy
            exact List.mem_cons_of_mem n (ih used y hy)

lemma collectC_snd_mem (sim : Vec → Vec → ℚ) (t : ℚ) (ty : String) (v : Vec) :
    ∀ (l : List MemJ) (used : List String) (a : String),
    a ∈ (collectC sim t ty v l used).2 →
    a ∈ used ∨ a ∈ (collectC sim t ty v l used).1.map (·.mem.id) := by
  intro l
  induction l with
  | nil => intro used a ha; exact Or.inl ha
  | cons n rest ih =>
    intro used a ha
    rw [collectC_cons] at ha ⊢
    by_cases h1 : n.mem.id ∈ used
    · rw [if_pos h1] at ha ⊢
      exact ih used a ha
    · rw [if_neg h1] at ha ⊢
      by_cases h2 : n.mem.type ≠ ty
      · rw [if_pos h2] at ha ⊢
        exact ih used a ha
      · rw [if_neg h2] at ha ⊢
        cases hv : n.vec with
        | none =>
          simp only [hv] at ha ⊢
          exact ih used a ha
        | some v2 =>
          simp only [hv] at ha ⊢
          by_cases h3 : t ≤ sim v v2
          · rw [if_pos h3] at ha ⊢
            rcases ih _ a ha with h4 | h5
            · rcases List.mem_cons.mp h4 with rfl | h6
              · exact Or.inr (by simp)
              · exact Or.inl h6
            · exact Or.inr (by simp [h5])
          · rw [if_neg h3] at ha ⊢
            exact ih used a ha

lemma collectC_mem (sim : Vec → Vec → ℚ) (t : ℚ) (ty : String) (v : Vec) :
    ∀ (l : List MemJ) (used : List String) (y : MemJ) (vy : Vec),
    (l.map (·.mem.id)).Nodup → y ∈ l → y.mem.id ∉ used →
    y.mem.type = ty → y.vec = some vy → t ≤ sim v vy →
    y ∈ (collectC sim t ty v l used).1 := by
  intro l
  induction l with
  | nil => intro used y vy _ hy; cases hy
  | cons n rest ih =>
    intro used y vy hnd hy hyu hty hvy hsim
    rw [List.map_cons, List.nodup_cons] at hnd
    rw [collectC_cons]
    rcases List.mem_cons.mp hy with rfl | hy2
    · rw [if_neg hyu, if_neg (by rw [hty]; exact fun h => h rfl)]
      simp only [hvy]
      rw [if_pos hsim]
      exact List.mem_cons_self _ _
    · have hyn : y.mem.id ≠ n.mem.id := by
        intro hc
        exact hnd.1 (hc ▸ List.mem_map_of_mem _ hy2)
      by_cases h1 : n.mem.id ∈ used
      · rw [if_pos h1]
        exact ih used y vy hnd.2 hy2 hyu hty hvy hsim
      · rw [if_neg h1]
        by_cases h2 : n.mem.type ≠ ty
        · rw [if_pos h2]
          exact ih used y vy hnd.2 hy2 hyu hty hvy hsim
        · rw [if_neg h2]
          cases hv : n.vec with
          | none =>
            simp only [hv]
            exact ih used y vy hnd.2 hy2 hyu hty hvy hsim
          | some v2 =>
            simp only [hv]
            by_cases h3 : t ≤ sim v v2
            · rw [if_pos h3]
              refine List.mem_cons_of_mem n (ih _ y vy hnd.2 hy2 ?_ hty hvy hsim)
              intro hc
              rcases List.mem_cons.mp hc with hc1 | hc2
              · exact hyn hc1
              · exact hyu hc2
            · rw [if_neg h3]
              exact ih used y vy hnd.2 hy2 hyu hty hvy hsim

lemma collectC_nil_of_far (sim : Vec → Vec → ℚ) (t : ℚ) (ty : String) (v : Vec) :
    ∀ (l : List MemJ) (used : List String),
    (∀ n ∈ l, n.mem.type = ty → ∀ v2, n.vec = some v2 → ¬ t ≤ sim v v2) →
    (collectC sim t ty v l used).1 = [] := by
  intro l
  induction l with
  | nil => intro used _; rfl
  | cons n rest ih =>
    intro used h
    rw [collectC_cons]
    have hrest : ∀ n ∈ rest, n.mem.type = ty → ∀ v2, n.vec = some v2 → ¬ t ≤ sim v v2 :=
      fun m hm => h m (List.mem_cons_of_mem n hm)
    by_cases h1 : n.mem.id ∈ used
    · rw [if_pos h1]
      exact ih used hrest
    · rw [if_neg h1]
      by_cases h2 : n.mem.type ≠ ty
      · rw [if_pos h2]
        exact ih used hrest
      · rw [if_neg h2]
        cases hv : n.vec with
        | none =>
          simp only [hv]
          exact ih used hrest
        | some v2 =>
          simp only [hv]
          rw [if_neg (h n (List.mem_cons_self n rest) (not_not.mp h2) v2 hv)]
          exact ih used hrest

lemma clustersC_cons (sim : Vec → Vec → ℚ) (t : ℚ) (m : MemJ) (rest : List MemJ)
    (used : List String) :
    clustersC sim t (m :: rest) used =
      if m.mem.id ∈ used then clustersC sim t rest used
      else match m.vec with
        | none => clustersC sim t rest used
        | some v =>
          if (collectC sim t m.mem.type v rest (m.mem.id :: used)).1.isEmpty then
            clustersC sim t rest (collectC sim t m.mem.type v rest (m.mem.id :: used)).2
          else (m :: (collectC sim t m.mem.type v rest (m.mem.id :: used)).1) ::
            clustersC sim t rest (collectC sim t m.mem.type v rest (m.mem.id :: used)).2 := rfl

lemma absorbedIds_cons (c : List MemJ) (cs : List (List MemJ)) :
    absorbedIds (c :: cs) = clusterTailIds c ++ absorbedIds cs := rfl

lemma clusterTailIds_of_seed (m : MemJ) (g : List MemJ)
    (h : ∀ o ∈ g, o.mem.importance ≤ m.mem.importance) :
    clusterTailIds (m :: g) = (sortD gtImp g).map (·.mem.id) := by
  unfold clusterTailIds
  rw [sortD_cons_max gtImp m g (fun o ho => decide_eq_false (not_lt.mpr (h o ho)))]
  rfl

lemma clustersC_crux (sim : Vec → Vec → ℚ) (t : ℚ) :
    ∀ (l : List MemJ) (used : List String) (x y : MemJ) (vx vy : Vec),
    (l.map (·.mem.id)).Nodup →
    l.Pairwise (fun a b => b.mem.importance ≤ a.mem.importance) →
    List.Sublist [x, y] l →
    x.mem.id ∉ used → y.mem.id ∉ used →
    x.mem.id ∉ absorbedIds (clustersC sim t l used) →
    y.mem.id ∉ absorbedIds (clustersC sim t l used) →
    x.vec = some vx → y.vec = some vy → y.mem.type = x.mem.type →
    ¬ t ≤ sim vx vy := by
  intro l
  induction l with
  | nil =>
    intro used x y vx vy _ _ hsub
    cases List.sublist_nil.mp hsub
  | cons m rest ih =>
    intro used x y vx vy hnd hpw hsub hxu hyu hxa hya hvx hvy hty hsim
    rw [List.map_cons, List.nodup_cons] at hnd
    rw [List.pairwise_cons] at hpw
    rw [clustersC_cons] at hxa hya
    cases hsub with
    | cons _ hsub2 =>
      have hxr : x ∈ rest := hsub2.subset (by simp)
      have hyr : y ∈ rest := hsub2.subset (by simp)
      have hxm : x.mem.id ≠ m.mem.id :=
        fun hc => hnd.1 (hc ▸ List.mem_map_of_mem _ hxr)
      have hym : y.mem.id ≠ m.mem.id :=
        fun hc => hnd.1 (hc ▸ List.mem_map_of_mem _ hyr)
      by_cases h1 : m.mem.id ∈ used
      · rw [if_pos h1] at hxa hya
        exact ih used x y vx vy hnd.2 hpw.2 hsub2 hxu hyu hxa hya hvx hvy hty hsim
      · rw [if_neg h1] at hxa hya
        cases hv : m.vec with
        | none =>
          simp only [hv] at hxa hya
          exact ih used x y vx vy hnd.2 hpw.2 hsub2 hxu hyu hxa hya hvx hvy hty hsim
        | some v =>
          simp only [hv] at hxa hya
          have hsnd : ∀ z : MemJ, z.mem.id ∉ used → z.mem.id ≠ m.mem.id →
              z.mem.id ∉ (collectC sim t m.mem.type v rest (m.mem.id :: used)).1.map (·.mem.id) →
              z.mem.id ∉ (collectC sim t m.mem.type v rest (m.mem.id :: used)).2 := by
            intro z hz1 hz2 hz3 hc
            rcases collectC_snd_mem sim t m.mem.type v rest (m.mem.id :: used) z.mem.id hc with
              h4 | h5
            · rcases List.mem_cons.mp h4 with h6 | h7
              · exact hz2 h6
              · exact hz1 h7
            · exact hz3 h5
          by_cases hemp :
              (collectC sim t m.mem.type v rest (m.mem.id :: used)).1.isEmpty = true
          · rw [if_pos hemp] at hxa hya
            have hnil : (collectC sim t m.mem.type v rest (m.mem.id :: used)).1 = [] :=
              List.isEmpty_iff.mp hemp
            refine ih _ x y vx vy hnd.2 hpw.2 hsub2 ?_ ?_ hxa hya hvx hvy hty hsim
            · exact hsnd x hxu hxm (by rw [hnil]; simp)
            · exact hsnd y hyu hym (by rw [hnil]; simp)
          · rw [if_neg hemp] at hxa hya
            rw [absorbedIds_cons] at hxa hya
            have htail : clusterTailIds
                (m :: (collectC sim t m.mem.type v rest (m.mem.id :: used)).1) =
                (sortD gtImp (collectC sim t m.mem.type v rest (m.mem.id :: used)).1).map
                  (·.mem.id) := by
              refine clusterTailIds_of_seed m _ ?_
              intro o ho
              exact hpw.1 o (collectC_fst_subset sim t m.mem.type v rest _ o ho)
            have hids : ∀ z : MemJ,
                z.mem.id ∉ clusterTailIds
                  (m :: (collectC sim t m.mem.type v rest (m.mem.id :: used)).1) →
                z.mem.id ∉ (collectC sim t m.mem.type v rest (m.mem.id :: used)).1.map
                  (·.mem.id) := by
              intro z hz hc
              refine hz ?_
              rw [htail]
              exact ((sortD_perm gtImp _).map (·.mem.id)).mem_iff.mpr hc
            refine ih _ x y vx vy hnd.2 hpw.2 hsub2
              (hsnd x hxu hxm (hids x (fun h => hxa (List.mem_append_left _ h))))
              (hsnd y hyu hym (hids y (fun h => hya (List.mem_append_left _ h))))
              (fun h => hxa (List.mem_append_right _ h))
              (fun h => hya (List.mem_append_right _ h)) hvx hvy hty hsim
    | cons₂ _ hsub2 =>
      have hyr : y ∈ rest := hsub2.subset (by simp)
      rw [if_neg hxu] at hya
      cases hv : m.vec with
      | none => rw [hvx] at hv; cases hv
      | some v =>
        have hvvx : v = vx := by
          rw [hvx] at hv
          exact (Option.some.inj hv).symm
        simp only [hv] at hya
        have hymem : y ∈ (collectC sim t m.mem.type v rest (m.mem.id :: used)).1 := by
          refine collectC_mem sim t m.mem.type v rest (m.mem.id :: used) y vy hnd.2 hyr ?_
            hty hvy (hvvx ▸ hsim)
          intro hc
          rcases List.mem_cons.mp hc with h6 | h7
          · exact hnd.1 (h6 ▸ List.mem_map_of_mem _ hyr)
          · exact hyu h7
        rw [if_neg (fun he => by
          rw [List.isEmpty_iff.mp he] at hymem
          cases hymem)] at hya
        rw [absorbedIds_cons] at hya
        refine hya (List.mem_append_left _ ?_)
        rw [clusterTailIds_of_seed m _
          (fun o ho => hpw.1 o (collectC_fst_subset sim t m.mem.type v rest _ o ho))]
        exact ((sortD_perm gtImp _).map (·.mem.id)).mem_iff.mpr (List.mem_map_of_mem _ hymem)

lemma clustersC_nil_of_far (sim : Vec → Vec → ℚ) (t : ℚ) :
    ∀ (l : List MemJ) (used : List String),
    (∀ (x y : MemJ) (vx vy : Vec), List.Sublist [x, y] l → x.vec = some vx →
      y.vec = some vy → y.mem.type = x.mem.type → ¬ t ≤ sim vx vy) →
    clustersC sim t l used = [] := by
  intro l
  induction l with
  | nil => intro used _; rfl
  | cons m rest ih =>
    intro used h
    rw [clustersC_cons]
    have hrest : ∀ (x y : MemJ) (vx vy : Vec), List.Sublist [x, y] rest → x.vec = some vx →
        y.vec = some vy → y.mem.type = x.mem.type → ¬ t ≤ sim vx vy :=
      fun x y vx vy hsub => h x y vx vy (hsub.cons m)
    by_cases h1 : m.mem.id ∈ used
    · rw [if_pos h1]
      exact ih used hrest
    · rw [if_neg h1]
      cases hv : m.vec with
      | none =>
        simp only [hv]
        exact ih used hrest
      | some v =>
        simp only [hv]
        have hemp : (collectC sim t m.mem.type v rest (m.mem.id :: used)).1 = [] := by
          refine collectC_nil_of_far sim t m.mem.type v rest _ ?_
          intro n hn hnty v2 hnv
          exact h m n v v2
            (List.Sublist.cons₂ m (List.singleton_sublist.mpr hn)) hv hnv hnty
        rw [if_pos (by rw [hemp]; rfl)]
        exact ih _ hrest

lemma clusterUpdate_eq_map (now : Nat) (c : List MemJ) (ms : List MemoryRow) :
    clusterUpdate now c ms = ms.map (rowC now c) := by
  have hr : ∀ m : MemoryRow, rowC now c m = rowC now c m := fun _ => rfl
  cases hs : sortD gtImp c with
  | nil =>
    simp only [clusterUpdate, hs]
    have hone : ∀ m : MemoryRow, rowC now c m = m := by
      intro m
      simp only [rowC, hs]
    exact ((List.map_congr_left (fun m _ => hone m)).trans (List.map_id' ms)).symm
  | cons base others =>
    simp only [clusterUpdate, hs]
    have h := foldl_map_fuse (fun (o : MemJ) (m : MemoryRow) =>
        if m.id = o.mem.id then
          { m with
            consolidated_into := some base.mem.id,
            updated_at := now } else m)
      others
      (updateById base.mem.id (fun m =>
        { m with
          content := combineContent base others,
          tags := combineTags base others,
          updated_at := now }) ms)
    refine h.trans ?_
    rw [updateById, List.map_map]
    refine List.map_congr_left ?_
    intro m _
    simp only [Function.comp, rowC, hs]

lemma consolidate_foldl_map (now : Nat) :
    ∀ (cs : List (List MemJ)) (ms : List MemoryRow),
    cs.foldl (fun ms c => clusterUpdate now c ms) ms = ms.map (applyC now cs) := by
  intro cs
  induction cs with
  | nil =>
    intro ms
    show ms = ms.map (fun a => a)
    exact (List.map_id' ms).symm
  | cons c cs ih =>
    intro ms
    rw [List.foldl_cons, clusterUpdate_eq_map, ih, List.map_map]
    rfl

lemma consolidate_memories_map (sim : Vec → Vec → ℚ) (t : ℚ) (now : Nat) (s : Store) :
    (cmd_consolidate sim t false now s).store.memories =
      s.memories.map (applyC now (consolidationClusters sim t s)) := by
  exact consolidate_foldl_map now (consolidationClusters sim t s) s.memories

lemma gfold_rowKey {β : Type _} (g : MemoryRow → β → MemoryRow)
    (hg : ∀ m b, rowKey (g m b) = rowKey m) :
    ∀ (l : List β) (m : MemoryRow), rowKey (l.foldl g m) = rowKey m := by
  intro l
  induction l with
  | nil => intro m; rfl
  | cons b l ih =>
    intro m
    rw [List.foldl_cons]
    exact (ih (g m b)).trans (hg m b)

lemma rowC_rowKey (now : Nat) (c : List MemJ) (m : MemoryRow) :
    rowKey (rowC now c m) = rowKey m := by
  unfold rowC
  cases hs : sortD gtImp c with
  | nil => rfl
  | cons base others =>
    have hstep : ∀ (m : MemoryRow) (o : MemJ), rowKey
        (if m.id = o.mem.id then
          { m with
            consolidated_into := some base.mem.id,
            updated_at := now } else m) =
        rowKey m := by
      intro m o
      by_cases h : m.id = o.mem.id
      · rw [if_pos h]; rfl
      · rw [if_neg h]
    refine (gfold_rowKey _ hstep others _).trans ?_
    by_cases h : m.id = base.mem.id
    · rw [if_pos h]; rfl
    · rw [if_neg h]

lemma applyC_rowKey (now : Nat) (cs : List (List MemJ)) (m : MemoryRow) :
    rowKey (applyC now cs m) = rowKey m :=
  gfold_rowKey _ (fun m c => rowC_rowKey now c m) cs m

lemma applyC_id (now : Nat) (cs : List (List MemJ)) (m : MemoryRow) :
    (applyC now cs m).id = m.id :=
  congrArg Prod.fst (applyC_rowKey now cs m)

lemma applyC_type (now : Nat) (cs : List (List MemJ)) (m : MemoryRow) :
    (applyC now cs m).type = m.type :=
  congrArg (fun p => p.2.1) (applyC_rowKey now cs m)

lemma applyC_importance (now : Nat) (cs : List (List MemJ)) (m : MemoryRow) :
    (applyC now cs m).importance = m.importance :=
  congrArg (fun p => p.2.2.1) (applyC_rowKey now cs m)

lemma applyC_synced (now : Nat) (cs : List (List MemJ)) (m : MemoryRow) :
    (applyC now cs m).synced_at = m.synced_at :=
  congrArg (fun p => p.2.2.2.1) (applyC_rowKey now cs m)

lemma applyC_avs (now : Nat) (cs : List (List MemJ)) (m : MemoryRow) :
    (applyC now cs m).avs_node_id = m.avs_node_id :=
  congrArg (fun p => p.2.2.2.2.1) (applyC_rowKey now cs m)

lemma gfoldCons_id (b : String) (now : Nat) :
    ∀ (others : List MemJ) (m : MemoryRow),
    ((others.foldl (fun m o => if m.id = o.mem.id then
      { m with
        consolidated_into := some b,
        updated_at := now } else m) m).id) = m.id := by
  intro others
  induction others with
  | nil => intro m; rfl
  | cons o os ih =>
    intro m
    rw [List.foldl_cons]
    by_cases h : m.id = o.mem.id
    · rw [if_pos h]
      exact ih _
    · rw [if_neg h]
      exact ih _

lemma gfold_skip (b : String) (now : Nat) :
    ∀ (others : List MemJ) (m : MemoryRow),
    m.id ∉ others.map (·.mem.id) →
    (others.foldl (fun m o => if m.id = o.mem.id then
      { m with
        consolidated_into := some b,
        updated_at := now } else m) m) = m := by
  intro others
  induction others with
  | nil => intro m _; rfl
  | cons o os ih =>
    intro m h
    rw [List.foldl_cons]
    rw [if_neg (fun hc => h (by rw [hc]; simp))]
    exact ih m (fun hc => h (by simp [hc]))

lemma gfold_cons_some (b : String) (now : Nat) :
    ∀ (others : List MemJ) (m : MemoryRow),
    m.consolidated_into = some b →
    ((others.foldl (fun m o => if m.id = o.mem.id then
      { m with
        consolidated_into := some b,
        updated_at := now } else m) m).consolidated_into) = some b := by
  intro others
  induction others with
  | nil => intro m h; exact h
  | cons o os ih =>
    intro m h
    rw [List.foldl_cons]
    by_cases hc : m.id = o.mem.id
    · rw [if_pos hc]
      exact ih _ rfl
    · rw [if_neg hc]
      exact ih _ h

lemma gfold_cons_of_mem (b : String) (now : Nat) :
    ∀ (others : List MemJ) (m : MemoryRow),
    m.id ∈ others.map (·.mem.id) →
    ((others.foldl (fun m o => if m.id = o.mem.id then
      { m with
        consolidated_into := some b,
        updated_at := now } else m) m).consolidated_into) = some b := by
  intro others
  induction others with
  | nil => intro m h; cases h
  | cons o os ih =>
    intro m h
    rw [List.foldl_cons]
    by_cases hc : m.id = o.mem.id
    · rw [if_pos hc]
      exact gfold_cons_some b now os _ rfl
    · rw [if_neg hc]
      refine ih m ?_
      rcases List.mem_cons.mp h with h1 | h2
      · exact absurd h1 hc
      · exact h2

lemma gfold_upd_now (b : String) (now : Nat) :
    ∀ (others : List MemJ) (m : MemoryRow),
    m.updated_at = now →
    ((others.foldl (fun m o => if m.id = o.mem.id then
      { m with
        consolidated_into := some b,
        updated_at := now } else m) m).updated_at) = now := by
  intro others
  induction others with
  | nil => intro m h; exact h
  | cons o os ih =>
    intro m h
    rw [List.foldl_cons]
    by_cases hc : m.id = o.mem.id
    · rw [if_pos hc]
      exact ih _ rfl
    · rw [if_neg hc]
      exact ih _ h

lemma gfold_upd_of_mem (b : String) (now : Nat) :
    ∀ (others : List MemJ) (m : MemoryRow),
    m.id ∈ others.map (·.mem.id) →
    ((others.foldl (fun m o => if m.id = o.mem.id then
      { m with
        consolidated_into := some b,
        updated_at := now } else m) m).updated_at) = now := by
  intro others
  induction others with
  | nil => intro m h; cases h
  | cons o os ih =>
    intro m h
    rw [List.foldl_cons]
    by_cases hc : m.id = o.mem.id
    · rw [if_pos hc]
      exact gfold_upd_now b now os _ rfl
    · rw [if_neg hc]
      refine ih m ?_
      rcases List.mem_cons.mp h with h1 | h2
      · exact absurd h1 hc
      · exact h2

lemma gfold_cons_pres (b : String) (now : Nat) :
    ∀ (others : List MemJ) (m : MemoryRow),
    m.id ∉ others.map (·.mem.id) →
    ((others.foldl (fun m o => if m.id = o.mem.id then
      { m with
        consolidated_into := some b,
        updated_at := now } else m) m).consolidated_into) = m.consolidated_into := by
  intro others m h
  rw [gfold_skip b now others m h]

lemma rowC_eq_nil (now : Nat) (c : List MemJ) (m : MemoryRow)
    (hs : sortD gtImp c = []) : rowC now c m = m := by
  unfold rowC
  rw [hs]

lemma rowC_eq_cons (now : Nat) (c : List MemJ) (m : MemoryRow) (base : MemJ)
    (others : List MemJ) (hs : sortD gtImp c = base :: others) :
    rowC now c m = others.foldl (fun m o => if m.id = o.mem.id then
      { m with
        consolidated_into := some base.mem.id,
        updated_at := now } else m)
      (if m.id = base.mem.id then
        { m with
          content := combineContent base others,
          tags := combineTags base others,
          updated_at := now } else m) := by
  unfold rowC
  rw [hs]

lemma rowC_not_touched (now : Nat) (c : List MemJ) (m : MemoryRow)
    (h : m.id ∉ c.map (·.mem.id)) : rowC now c m = m := by
  cases hs : sortD gtImp c with
  | nil => exact rowC_eq_nil now c m hs
  | cons base others =>
    have hmem : m.id ∉ (base :: others).map (·.mem.id) := by
      intro hc
      refine h (((sortD_perm gtImp c).map (·.mem.id)).mem_iff.mp ?_)
      rw [hs]
      exact hc
    rw [List.map_cons] at hmem
    have h1 : m.id ≠ base.mem.id := fun hc => hmem (by simp [hc])
    have h2 : m.id ∉ others.map (·.mem.id) := fun hc => hmem (by simp [hc])
    rw [rowC_eq_cons now c m base others hs, if_neg h1]
    exact gfold_skip base.mem.id now others m h2

lemma rowC_cons_of_tail (now : Nat) (c : List MemJ) (m : MemoryRow)
    (h : m.id ∈ clusterTailIds c) :
    (∃ b, (rowC now c m).consolidated_into = some b) ∧ (rowC now c m).updated_at = now := by
  unfold clusterTailIds at h
  cases hs : sortD gtImp c with
  | nil => rw [hs] at h; cases h
  | cons base others =>
    rw [hs] at h
    have hmem : m.id ∈ others.map (·.mem.id) := h
    rw [rowC_eq_cons now c m base others hs]
    have hid : (if m.id = base.mem.id then
        { m with
          content := combineContent base others,
          tags := combineTags base others,
          updated_at := now } else m).id = m.id := by
      by_cases hb : m.id = base.mem.id
      · rw [if_pos hb]
      · rw [if_neg hb]
    constructor
    · exact ⟨base.mem.id, gfold_cons_of_mem base.mem.id now others _ (by rw [hid]; exact hmem)⟩
    · exact gfold_upd_of_mem base.mem.id now others _ (by rw [hid]; exact hmem)

lemma rowC_cons_pres (now : Nat) (c : List MemJ) (m : MemoryRow)
    (h : m.id ∉ clusterTailIds c) :
    (rowC now c m).consolidated_into = m.consolidated_into := by
  unfold clusterTailIds at h
  cases hs : sortD gtImp c with
  | nil => rw [rowC_eq_nil now c m hs]
  | cons base others =>
    rw [hs] at h
    simp only [List.tail_cons] at h
    rw [rowC_eq_cons now c m base others hs]
    by_cases hb : m.id = base.mem.id
    · rw [if_pos hb]
      exact gfold_cons_pres base.mem.id now others _ h
    · rw [if_neg hb]
      exact gfold_cons_pres base.mem.id now others m h

lemma rowC_upd_touched (now : Nat) (c : List MemJ) (m : MemoryRow)
    (h : m.id ∈ c.map (·.mem.id)) : (rowC now c m).updated_at = now := by
  cases hs : sortD gtImp c with
  | nil =>
    exfalso
    have hx := (((sortD_perm gtImp c).map (·.mem.id)).mem_iff).mpr h
    rw [hs] at hx
    cases hx
  | cons base others =>
    have hmem : m.id ∈ (base :: others).map (·.mem.id) := by
      have hx := (((sortD_perm gtImp c).map (·.mem.id)).mem_iff).mpr h
      rw [hs] at hx
      exact hx
    rw [List.map_cons] at hmem
    rw [rowC_eq_cons now c m base others hs]
    rcases List.mem_cons.mp hmem with h1 | h2
    · rw [if_pos h1]
      exact gfold_upd_now base.mem.id now others _ rfl
    · have hid : (if m.id = base.mem.id then
          { m with
            content := combineContent base others,
            tags := combineTags base others,
            updated_at := now } else m).id = m.id := by
        by_cases hb : m.id = base.mem.id
        · rw [if_pos hb]
        · rw [if_neg hb]
      exact gfold_upd_of_mem base.mem.id now others _ (by rw [hid]; exact h2)

lemma rowC_upd_now (now : Nat) (c : List MemJ) (m : MemoryRow)
    (h : m.updated_at = now) : (rowC now c m).updated_at = now := by
  cases hs : sortD gtImp c with
  | nil => rw [rowC_eq_nil now c m hs]; exact h
  | cons base others =>
    rw [rowC_eq_cons now c m base others hs]
    by_cases hb : m.id = base.mem.id
    · rw [if_pos hb]
      exact gfold_upd_now base.mem.id now others _ rfl
    · rw [if_neg hb]
      exact gfold_upd_now base.mem.id now others _ h

lemma rowC_cons_some (now : Nat) (c : List MemJ) (m : MemoryRow) (b0 : String)
    (h : m.consolidated_into = some b0) :
    ∃ b, (rowC now c m).consolidated_into = some b := by
  by_cases ht : m.id ∈ clusterTailIds c
  · exact (rowC_cons_of_tail now c m ht).1
  · exact ⟨b0, (rowC_cons_pres now c m ht).trans h⟩

lemma rowC_id (now : Nat) (c : List MemJ) (m : MemoryRow) : (rowC now c m).id = m.id :=
  congrArg Prod.fst (rowC_rowKey now c m)

lemma touchedIds_cons (c : List MemJ) (cs : List (List MemJ)) :
    touchedIds (c :: cs) = c.map (·.mem.id) ++ touchedIds cs := rfl

lemma applyC_cons_step (now : Nat) (c : List MemJ) (cs : List (List MemJ)) (m : MemoryRow) :
    applyC now (c :: cs) m = applyC now cs (rowC now c m) := rfl

lemma applyC_not_touched (now : Nat) :
    ∀ (cs : List (List MemJ)) (m : MemoryRow),
    m.id ∉ touchedIds cs → applyC now cs m = m := by
  intro cs
  induction cs with
  | nil => intro m _; rfl
  | cons c cs ih =>
    intro m h
    rw [touchedIds_cons] at h
    rw [applyC_cons_step,
      rowC_not_touched now c m (fun hc => h (List.mem_append_left _ hc))]
    exact ih m (fun hc => h (List.mem_append_right _ hc))

lemma applyC_upd_stable (now : Nat) :
    ∀ (cs : List (List MemJ)) (m : MemoryRow),
    m.updated_at = now → (applyC now cs m).updated_at = now := by
  intro cs
  induction cs with
  | nil => intro m h; exact h
  | cons c cs ih =>
    intro m h
    rw [applyC_cons_step]
    exact ih _ (rowC_upd_now now c m h)

lemma applyC_upd_touched (now : Nat) :
    ∀ (cs : List (List MemJ)) (m : MemoryRow),
    m.id ∈ touchedIds cs → (applyC now cs m).updated_at = now := by
  intro cs
  induction cs with
  | nil => intro m h; cases h
  | cons c cs ih =>
    intro m h
    rw [touchedIds_cons] at h
    rw [applyC_cons_step]
    rcases List.mem_append.mp h with h1 | h2
    · exact applyC_upd_stable now cs _ (rowC_upd_touched now c m h1)
    · exact ih _ (by rw [rowC_id]; exact h2)

lemma applyC_cons_pres (now : Nat) :
    ∀ (cs : List (List MemJ)) (m : MemoryRow),
    m.id ∉ absorbedIds cs →
    (applyC now cs m).consolidated_into = m.consolidated_into := by
  intro cs
  induction cs with
  | nil => intro m _; rfl
  | cons c cs ih =>
    intro m h
    rw [absorbedIds_cons] at h
    rw [applyC_cons_step]
    rw [ih _ (by rw [rowC_id]; exact fun hc => h (List.mem_append_right _ hc))]
    exact rowC_cons_pres now c m (fun hc => h (List.mem_append_left _ hc))

lemma applyC_cons_some_stable (now : Nat) :
    ∀ (cs : List (List MemJ)) (m : MemoryRow) (b0 : String),
    m.consolidated_into = some b0 →
    ∃ b, (applyC now cs m).consolidated_into = some b := by
  intro cs
  induction cs with
  | nil => intro m b0 h; exact ⟨b0, h⟩
  | cons c cs ih =>
    intro m b0 h
    rw [applyC_cons_step]
    obtain ⟨b1, hb1⟩ := rowC_cons_some now c m b0 h
    exact ih _ b1 hb1

lemma applyC_cons_absorbed (now : Nat) :
    ∀ (cs : List (List MemJ)) (m : MemoryRow),
    m.id ∈ absorbedIds cs →
    ∃ b, (applyC now cs m).consolidated_into = some b := by
  intro cs
  induction cs with
  | nil => intro m h; cases h
  | cons c cs ih =>
    intro m h
    rw [absorbedIds_cons] at h
    rw [applyC_cons_step]
    by_cases h1 : m.id ∈ clusterTailIds c
    · obtain ⟨⟨b, hb⟩, _⟩ := rowC_cons_of_tail now c m h1
      exact applyC_cons_some_stable now cs _ b hb
    · rcases List.mem_append.mp h with h2 | h3
      · exact absurd h2 h1
      · exact ih _ (by rw [rowC_id]; exact h3)

lemma joinActive_after (F : MemoryRow → MemoryRow) (abs : List String)
    (hid : ∀ m, (F m).id = m.id)
    (hcons : ∀ m, m.id ∉ abs → (F m).consolidated_into = m.consolidated_into)
    (habs : ∀ m, m.id ∈ abs → ∃ b, (F m).consolidated_into = some b)
    (es : List EmbeddingRow) :
    ∀ ms : List MemoryRow,
    ((ms.map F).filter (fun m => m.consolidated_into.isNone)).map
        (fun m => MemJ.mk m (lookupVec es m.id)) =
      (((ms.filter (fun m => m.consolidated_into.isNone)).map
        (fun m => MemJ.mk m (lookupVec es m.id))).filter
        (fun j => decide (j.mem.id ∉ abs))).map
        (fun j => MemJ.mk (F j.mem) j.vec) := by
  intro ms
  induction ms with
  | nil => rfl
  | cons m ms ih =>
    rw [List.map_cons, List.filter_cons, List.filter_cons]
    by_cases hab : m.id ∈ abs
    · obtain ⟨b, hb⟩ := habs m hab
      rw [if_neg (by rw [hb]; exact Bool.false_ne_true)]
      by_cases hcn : m.consolidated_into.isNone = true
      · rw [if_pos hcn]
        simp only [List.map_cons, List.filter_cons]
        rw [if_neg (by
          refine (Bool.not_eq_true _).mpr ?_
          exact decide_eq_false (not_not_intro hab))]
        exact ih
      · rw [if_neg hcn]
        exact ih
    · rw [hcons m hab]
      by_cases hcn : m.consolidated_into.isNone = true
      · rw [if_pos hcn, if_pos hcn]
        simp only [List.map_cons, List.filter_cons]
        rw [if_pos (decide_eq_true hab)]
        simp only [List.map_cons]
        rw [hid m]
        exact congrArg _ ih
      · rw [if_neg hcn, if_neg hcn]
        exact ih

lemma fetch_after (sim : Vec → Vec → ℚ) (t : ℚ) (now : Nat) (s : Store) :
    fetchConsolidate (cmd_consolidate sim t false now s).store =
      ((fetchConsolidate s).filter
        (fun j => decide (j.mem.id ∉ absorbedIds (consolidationClusters sim t s)))).map
        (fun j => MemJ.mk (applyC now (consolidationClusters sim t s) j.mem) j.vec) := by
  have h0 : (cmd_consolidate sim t false now s).store.memories =
      s.memories.map (applyC now (consolidationClusters sim t s)) :=
    consolidate_memories_map sim t now s
  have h0e : (cmd_consolidate sim t false now s).store.embeddings = s.embeddings := rfl
  show sortD gtImp (joinActive (cmd_consolidate sim t false now s).store) = _
  unfold joinActive
  rw [h0, h0e]
  rw [joinActive_after (applyC now (consolidationClusters sim t s))
    (absorbedIds (consolidationClusters sim t s))
    (applyC_id now _)
    (fun m hm => applyC_cons_pres now _ m hm)
    (fun m hm => applyC_cons_absorbed now _ m hm)
    s.embeddings s.memories]
  rw [sortD_gtImp_map (fun j => MemJ.mk (applyC now (consolidationClusters sim t s) j.mem) j.vec)
    (fun j => applyC_importance now _ j.mem)]
  rw [sortD_gtImp_filter]
  rfl

lemma sublist_of_map {α β : Type _} (f : α → β) :
    ∀ (l : List α) (lp : List β), List.Sublist lp (l.map f) →
    ∃ l2, List.Sublist l2 l ∧ lp = l2.map f := by
  intro l
  induction l with
  | nil =>
    intro lp h
    rw [List.map_nil] at h
    rw [List.sublist_nil.mp h]
    exact ⟨[], List.nil_sublist _, rfl⟩
  | cons a l ih =>
    intro lp h
    rw [List.map_cons] at h
    cases h with
    | cons _ h2 =>
      obtain ⟨l2, hsub, heq⟩ := ih lp h2
      exact ⟨l2, hsub.cons a, heq⟩
    | cons₂ _ h2 =>
      obtain ⟨l2, hsub, heq⟩ := ih _ h2
      exact ⟨a :: l2, hsub.cons₂ a, by rw [List.map_cons, heq]⟩

lemma map_eq_pair {α β : Type _} {f : α → β} {l : List α} {a b : β}
    (h : [a, b] = l.map f) : ∃ x y, l = [x, y] ∧ a = f x ∧ b = f y := by
  cases l with
  | nil => cases h
  | cons x l2 =>
    cases l2 with
    | nil => simp at h
    | cons y l3 =>
      cases l3 with
      | nil =>
        rw [List.map_cons, List.map_cons, List.map_nil] at h
        rw [List.cons.injEq, List.cons.injEq] at h
        exact ⟨x, y, rfl, h.1, h.2.1⟩
      | cons z l4 => simp at h

lemma fetch_ids_nodup (s : Store) (hids : (s.memories.map (·.id)).Nodup) :
    ((fetchConsolidate s).map (·.mem.id)).Nodup := by
  have h1 : ((joinActive s).map (·.mem.id)) =
      (s.memories.filter (fun m => m.consolidated_into.isNone)).map (·.id) := by
    unfold joinActive
    rw [List.map_map]
    rfl
  have h2 : ((joinActive s).map (·.mem.id)).Nodup := by
    rw [h1]
    exact hids.sublist ((List.filter_sublist _).map _)
  exact (((sortD_perm gtImp (joinActive s)).map (·.mem.id)).nodup_iff).mpr h2

theorem C7_consolidate_idempotent (sim : Vec → Vec → ℚ) (t : ℚ) (now1 now2 : Nat) (s : Store)
    (hids : (s.memories.map (·.id)).Nodup) :
    (cmd_consolidate sim t false now2
      (cmd_consolidate sim t false now1 s).store).memories_consolidated = 0 := by
  have hcs2 : consolidationClusters sim t (cmd_consolidate sim t false now1 s).store = [] := by
    unfold consolidationClusters
    rw [fetch_after sim t now1 s]
    apply clustersC_nil_of_far
    intro xp yp vx vy hsub hvx hvy hty
    obtain ⟨l2, hsub2, heq⟩ := sublist_of_map _ _ _ hsub
    obtain ⟨x, y, rfl, hx, hy⟩ := map_eq_pair heq
    subst hx
    subst hy
    have hxmem : x ∈ (fetchConsolidate s).filter
        (fun j => decide (j.mem.id ∉ absorbedIds (consolidationClusters sim t s))) :=
      hsub2.subset (by simp)
    have hymem : y ∈ (fetchConsolidate s).filter
        (fun j => decide (j.mem.id ∉ absorbedIds (consolidationClusters sim t s))) :=
      hsub2.subset (by simp)
    have hxabs : x.mem.id ∉ absorbedIds (consolidationClusters sim t s) :=
      of_decide_eq_true (List.mem_filter.mp hxmem).2
    have hyabs : y.mem.id ∉ absorbedIds (consolidationClusters sim t s) :=
      of_decide_eq_true (List.mem_filter.mp hymem).2
    have hsubL1 : List.Sublist [x, y] (fetchConsolidate s) :=
      hsub2.trans (List.filter_sublist _)
    have hty2 : y.mem.type = x.mem.type := by
      have e1 : (applyC now1 (consolidationClusters sim t s) y.mem).type = y.mem.type :=
        applyC_type now1 _ y.mem
      have e2 : (applyC now1 (consolidationClusters sim t s) x.mem).type = x.mem.type :=
        applyC_type now1 _ x.mem
      rw [← e1, ← e2]
      exact hty
    exact clustersC_crux sim t (fetchConsolidate s) [] x y vx vy
      (fetch_ids_nodup s hids) (sortD_gtImp_pairwise _) hsubL1
      (List.not_mem_nil _) (List.not_mem_nil _) hxabs hyabs hvx hvy hty2
  have hproj : (cmd_consolidate sim t false now2
      (cmd_consolidate sim t false now1 s).store).memories_consolidated =
      ((consolidationClusters sim t
        (cmd_consolidate sim t false now1 s).store).map (fun c => c.length - 1)).sum := rfl
  rw [hproj, hcs2]
  rfl

lemma mergeOne_ok_snd (now : Nat) (k r : String) (st st1 : List LinkRow × List MemoryRow)
    (h : mergeOne now k r st = Except.ok st1) :
    st1.2 = markConsolidated k r now st.2 := by
  unfold mergeOne at h
  cases h1 : repointTo k r st.1 with
  | error e => simp only [h1] at h; cases h
  | ok ls1 =>
    simp only [h1] at h
    cases h2 : repointFrom k r ls1 with
    | error e => simp only [h2] at h; cases h
    | ok ls2 =>
      simp only [h2] at h
      cases h
      rfl

lemma mergeList_ok_snd (now : Nat) (k : String) :
    ∀ (rs : List MemJ) (st st' : List LinkRow × List MemoryRow),
    mergeList now k rs st = Except.ok st' →
    st'.2 = rs.foldl (fun ms r => markConsolidated k r.mem.id now ms) st.2 := by
  intro rs
  induction rs with
  | nil =>
    intro st st' h
    cases h
    rfl
  | cons r rs ih =>
    intro st st' h
    unfold mergeList at h
    cases h1 : mergeOne now k r.mem.id st with
    | error e => simp only [h1] at h; cases h
    | ok st1 =>
      simp only [h1] at h
      rw [List.foldl_cons]
      have h2 := ih st1 st' h
      rw [h2, mergeOne_ok_snd now k r.mem.id st st1 h1]

lemma mergeGroups_ok_snd (now : Nat) :
    ∀ (gs : List (List MemJ)) (st st' : List LinkRow × List MemoryRow),
    mergeGroups now gs st = Except.ok st' →
    st'.2 = gs.foldl (fun ms g =>
      match sortD gtImpId g with
      | [] => ms
      | keep :: remove => remove.foldl (fun ms r => markConsolidated keep.mem.id r.mem.id now ms) ms)
      st.2 := by
  intro gs
  induction gs with
  | nil =>
    intro st st' h
    cases h
    rfl
  | cons g gs ih =>
    intro st st' h
    unfold mergeGroups at h
    rw [List.foldl_cons]
    cases hs : sortD gtImpId g with
    | nil =>
      simp only [hs] at h
      exact ih st st' h
    | cons keep remove =>
      simp only [hs] at h
      cases h1 : mergeList now keep.mem.id remove st with
      | error e => simp only [h1] at h; cases h
      | ok st1 =>
        simp only [h1] at h
        have h2 := ih st1 st' h
        rw [h2, mergeList_ok_snd now keep.mem.id remove st st1 h1]

lemma rowDGroup_eq_map (now : Nat) (g : List MemJ) (ms : List MemoryRow) :
    (match sortD gtImpId g with
      | [] => ms
      | keep :: remove =>
        remove.foldl (fun ms r => markConsolidated keep.mem.id r.mem.id now ms) ms) =
    ms.map (rowDGroup now g) := by
  cases hs : sortD gtImpId g with
  | nil =>
    have hone : ∀ m : MemoryRow, rowDGroup now g m = m := by
      intro m
      simp only [rowDGroup, hs]
    exact ((List.map_congr_left (fun m _ => hone m)).trans (List.map_id' ms)).symm
  | cons keep remove =>
    have h := foldl_map_fuse (fun (r : MemJ) (m : MemoryRow) =>
        if m.id = r.mem.id then
          { m with
            consolidated_into := some keep.mem.id,
            updated_at := now } else m)
      remove ms
    refine h.trans ?_
    refine List.map_congr_left ?_
    intro m _
    simp only [rowDGroup, hs]

lemma dedup_foldl_map (now : Nat) :
    ∀ (gs : List (List MemJ)) (ms : List MemoryRow),
    gs.foldl (fun ms g =>
      match sortD gtImpId g with
      | [] => ms
      | keep :: remove => remove.foldl (fun ms r => markConsolidated keep.mem.id r.mem.id now ms) ms)
      ms = ms.map (applyD now gs) := by
  intro gs
  induction gs with
  | nil =>
    intro ms
    exact ((List.map_congr_left (fun m _ => rfl)).trans (List.map_id' ms)).symm
  | cons g gs ih =>
    intro ms
    rw [List.foldl_cons, rowDGroup_eq_map now g ms, ih, List.map_map]
    exact List.map_congr_left (fun m _ => rfl)

lemma dedup_memories_map (sim : Vec → Vec → ℚ) (t : ℚ) (now : Nat) (s : Store)
    (r : DupResult) (h : cmd_duplicates sim t false now s = Except.ok r) :
    r.store.memories = s.memories.map (applyD now (dedupGroups sim t s)) := by
  unfold cmd_duplicates at h
  cases hm : mergeGroups now (dedupGroups sim t s) (s.links, s.memories) with
  | error e =>
    simp only [hm] at h
    cases h
  | ok st =>
    simp only [hm] at h
    cases h
    show st.2 = _
    have h2 := mergeGroups_ok_snd now (dedupGroups sim t s) _ st hm
    rw [h2]
    exact dedup_foldl_map now (dedupGroups sim t s) s.memories

lemma rowDGroup_eq_nil (now : Nat) (g : List MemJ) (m : MemoryRow)
    (hs : sortD gtImpId g = []) : rowDGroup now g m = m := by
  unfold rowDGroup
  rw [hs]

lemma rowDGroup_eq_cons (now : Nat) (g : List MemJ) (m : MemoryRow) (keep : MemJ)
    (remove : List MemJ) (hs : sortD gtImpId g = keep :: remove) :
    rowDGroup now g m = remove.foldl (fun m r => if m.id = r.mem.id then
      { m with
        consolidated_into := some keep.mem.id,
        updated_at := now } else m) m := by
  unfold rowDGroup
  rw [hs]

lemma rowDGroup_rowKey (now : Nat) (g : List MemJ) (m : MemoryRow) :
    rowKey (rowDGroup now g m) = rowKey m := by
  cases hs : sortD gtImpId g with
  | nil => rw [rowDGroup_eq_nil now g m hs]
  | cons keep remove =>
    rw [rowDGroup_eq_cons now g m keep remove hs]
    refine gfold_rowKey _ ?_ remove m
    intro m o
    by_cases h : m.id = o.mem.id
    · rw [if_pos h]; rfl
    · rw [if_neg h]

lemma rowDGroup_id (now : Nat) (g : List MemJ) (m : MemoryRow) :
    (rowDGroup now g m).id = m.id :=
  congrArg Prod.fst (rowDGroup_rowKey now g m)

lemma applyD_rowKey (now : Nat) (gs : List (List MemJ)) (m : MemoryRow) :
    rowKey (applyD now gs m) = rowKey m :=
  gfold_rowKey _ (fun m g => rowDGroup_rowKey now g m) gs m

lemma applyD_id (now : Nat) (gs : List (List MemJ)) (m : MemoryRow) :
    (applyD now gs m).id = m.id :=
  congrArg Prod.fst (applyD_rowKey now gs m)

lemma applyD_importance (now : Nat) (gs : List (List MemJ)) (m : MemoryRow) :
    (applyD now gs m).importance = m.importance :=
  congrArg (fun p => p.2.2.1) (applyD_rowKey now gs m)

lemma applyD_synced (now : Nat) (gs : List (List MemJ)) (m : MemoryRow) :
    (applyD now gs m).synced_at = m.synced_at :=
  congrArg (fun p => p.2.2.2.1) (applyD_rowKey now gs m)

lemma applyD_avs (now : Nat) (gs : List (List MemJ)) (m : MemoryRow) :
    (applyD now gs m).avs_node_id = m.avs_node_id :=
  congrArg (fun p => p.2.2.2.2.1) (applyD_rowKey now gs m)

lemma rowDGroup_upd_now (now : Nat) (g : List MemJ) (m : MemoryRow)
    (h : m.updated_at = now) : (rowDGroup now g m).updated_at = now := by
  cases hs : sortD gtImpId g with
  | nil => rw [rowDGroup_eq_nil now g m hs]; exact h
  | cons keep remove =>
    rw [rowDGroup_eq_cons now g m keep remove hs]
    exact gfold_upd_now keep.mem.id now remove m h

lemma removedIdsD_cons (g : List MemJ) (gs : List (List MemJ)) :
    removedIdsD (g :: gs) =
      ((sortD gtImpId g).tail).map (·.mem.id) ++ removedIdsD gs := rfl

lemma rowDGroup_upd_of_tail (now : Nat) (g : List MemJ) (m : MemoryRow)
    (h : m.id ∈ ((sortD gtImpId g).tail).map (·.mem.id)) :
    (rowDGroup now g m).updated_at = now := by
  cases hs : sortD gtImpId g with
  | nil => rw [hs] at h; cases h
  | cons keep remove =>
    rw [hs] at h
    simp only [List.tail_cons] at h
    rw [rowDGroup_eq_cons now g m keep remove hs]
    exact gfold_upd_of_mem keep.mem.id now remove m h

lemma applyD_cons_step (now : Nat) (g : List MemJ) (gs : List (List MemJ)) (m : MemoryRow) :
    applyD now (g :: gs) m = applyD now gs (rowDGroup now g m) := rfl

lemma applyD_upd_stable (now : Nat) :
    ∀ (gs : List (List MemJ)) (m : MemoryRow),
    m.updated_at = now → (applyD now gs m).updated_at = now := by
  intro gs
  induction gs with
  | nil => intro m h; exact h
  | cons g gs ih =>
    intro m h
    rw [applyD_cons_step]
    exact ih _ (rowDGroup_upd_now now g m h)

lemma applyD_upd_removed (now : Nat) :
    ∀ (gs : List (List MemJ)) (m : MemoryRow),
    m.id ∈ removedIdsD gs → (applyD now gs m).updated_at = now := by
  intro gs
  induction gs with
  | nil => intro m h; cases h
  | cons g gs ih =>
    intro m h
    rw [removedIdsD_cons] at h
    rw [applyD_cons_step]
    rcases List.mem_append.mp h with h1 | h2
    · exact applyD_upd_stable now gs _ (rowDGroup_upd_of_tail now g m h1)
    · exact ih _ (by rw [rowDGroup_id]; exact h2)

lemma pendingSync_mem (s : Store) (m : MemoryRow) (hm : m ∈ s.memories)
    (hp : syncPending m = true) : m.id ∈ pendingSyncIds s :=
  List.mem_map_of_mem _ (List.mem_filter.mpr ⟨hm, hp⟩)

lemma syncPending_true (m : MemoryRow) (n : String) (ts : Nat)
    (havs : m.avs_node_id = some n) (hts : m.synced_at = some ts)
    (himp : 70 ≤ m.importance) (hlt : ts < m.updated_at) : syncPending m = true := by
  unfold syncPending
  rw [havs, hts]
  simp [himp, hlt]

/-- **C7 witness**: on the two-memory store `storeC7` with a similarity
function that is constantly 1 and threshold 0.85, the first consolidation
run merges one memory and the second run merges zero. -/
theorem C7_consolidate_idempotent_witness :
    ((storeC7.memories.map (·.id)).Nodup) ∧
    (cmd_consolidate simOne (Rat.divInt 85 100) false 7 storeC7).memories_consolidated = 1 ∧
    (cmd_consolidate simOne (Rat.divInt 85 100) false 9
      (cmd_consolidate simOne (Rat.divInt 85 100) false 7 storeC7).store).memories_consolidated
      = 0 :=
  ⟨by decide, rfl, C7_consolidate_idempotent simOne (Rat.divInt 85 100) 7 9 storeC7 (by decide)⟩

/-- **C10** (amended): every non-dry maintenance mutation — a counted decay
step, a consolidation update of a survivor or an absorbed memory, a
deduplication tombstone — sets the affected row's `updated_at` to the
current time while preserving its id, `avs_node_id` and `synced_at`;
consequently a previously synced row re-enters the pending-sync set
provided its importance after the mutation is still ≥ 70 (automatic for
consolidation and deduplication, which preserve importance; for decay only
when `max(10, importance - rate)` is still ≥ 70). -/
theorem C10_maintenance_resync (sim : Vec → Vec → ℚ) (t : ℚ) (rate : Int)
    (cutoff now : Nat) (s : Store) (m : MemoryRow) (n : String) (ts : Nat)
    (hm : m ∈ s.memories) (hids : (s.memories.map (·.id)).Nodup)
    (havs : m.avs_node_id = some n) (hts : m.synced_at = some ts) (hlt : ts < now) :
    (decayEligible cutoff m = true → decayNew rate m ≠ m.importance →
      ∃ m2 ∈ (cmd_decay rate cutoff false now s).store.memories,
        m2.id = m.id ∧ m2.updated_at = now ∧ m2.importance = decayNew rate m ∧
        (70 ≤ decayNew rate m →
          m2.id ∈ pendingSyncIds (cmd_decay rate cutoff false now s).store)) ∧
    (m.id ∈ touchedIds (consolidationClusters sim t s) →
      ∃ m2 ∈ (cmd_consolidate sim t false now s).store.memories,
        m2.id = m.id ∧ m2.updated_at = now ∧ m2.importance = m.importance ∧
        (70 ≤ m.importance →
          m2.id ∈ pendingSyncIds (cmd_consolidate sim t false now s).store)) ∧
    (∀ r, cmd_duplicates sim t false now s = Except.ok r →
      m.id ∈ removedIdsD (dedupGroups sim t s) →
      ∃ m2 ∈ r.store.memories,
        m2.id = m.id ∧ m2.updated_at = now ∧ m2.importance = m.importance ∧
        (70 ≤ m.importance → m2.id ∈ pendingSyncIds r.store)) := by
  refine ⟨?_, ?_, ?_⟩
  · intro he hch
    have hmems := cmd_decay_memories rate cutoff now s hids
    have hcond : (decayEligible cutoff m &&
        decide (decayNew rate m ≠ m.importance)) = true := by
      rw [he]
      simp [hch]
    have hrow : decayRowF rate cutoff now m =
        { m with importance := decayNew rate m, updated_at := now } := by
      unfold decayRowF
      rw [if_pos hcond]
    have hmem2 : decayRowF rate cutoff now m ∈
        (cmd_decay rate cutoff false now s).store.memories := by
      rw [hmems]
      exact List.mem_map_of_mem _ hm
    refine ⟨decayRowF rate cutoff now m, hmem2, by rw [hrow], by rw [hrow], by rw [hrow], ?_⟩
    intro h70
    refine pendingSync_mem _ _ hmem2 ?_
    refine syncPending_true _ n ts ?_ ?_ ?_ ?_
    · rw [hrow]; exact havs
    · rw [hrow]; exact hts
    · rw [hrow]; exact h70
    · rw [hrow]; exact hlt
  · intro htch
    have hmems := consolidate_memories_map sim t now s
    have hmem2 : applyC now (consolidationClusters sim t s) m ∈
        (cmd_consolidate sim t false now s).store.memories := by
      rw [hmems]
      exact List.mem_map_of_mem _ hm
    refine ⟨applyC now (consolidationClusters sim t s) m, hmem2,
      applyC_id now _ m,
      applyC_upd_touched now _ m htch,
      applyC_importance now _ m, ?_⟩
    intro h70
    refine pendingSync_mem _ _ hmem2 ?_
    refine syncPending_true _ n ts ((applyC_avs now _ m).trans havs)
      ((applyC_synced now _ m).trans hts) ?_ ?_
    · rw [applyC_importance]; exact h70
    · rw [applyC_upd_touched now _ m htch]; exact hlt
  · intro r hr hrem
    have hmems := dedup_memories_map sim t now s r hr
    have hmem2 : applyD now (dedupGroups sim t s) m ∈ r.store.memories := by
      rw [hmems]
      exact List.mem_map_of_mem _ hm
    refine ⟨applyD now (dedupGroups sim t s) m, hmem2,
      applyD_id now _ m,
      applyD_upd_removed now _ m hrem,
      applyD_importance now _ m, ?_⟩
    intro h70
    refine pendingSync_mem _ _ hmem2 ?_
    refine syncPending_true _ n ts ((applyD_avs now _ m).trans havs)
      ((applyD_synced now _ m).trans hts) ?_ ?_
    · rw [applyD_importance]; exact h70
    · rw [applyD_upd_removed now _ m hrem]; exact hlt

/-- **C10 witness**: on `storeC10w` (one synced memory of importance 80) the
pending set is empty before maintenance, a decay run at rate 5 touches the
memory and puts it back in the pending set, and the three branches of
`C10_maintenance_resync` hold at these concrete arguments. -/
theorem C10_maintenance_resync_witness :
    memC10w ∈ storeC10w.memories ∧
    (storeC10w.memories.map (·.id)).Nodup ∧
    (50 : Nat) < 200 ∧
    pendingSyncIds storeC10w = [] ∧
    pendingSyncIds (cmd_decay 5 100 false 200 storeC10w).store = ["m1"] ∧
    ((decayEligible 100 memC10w = true → decayNew 5 memC10w ≠ memC10w.importance →
      ∃ m2 ∈ (cmd_decay 5 100 false 200 storeC10w).store.memories,
        m2.id = memC10w.id ∧ m2.updated_at = 200 ∧ m2.importance = decayNew 5 memC10w ∧
        (70 ≤ decayNew 5 memC10w →
          m2.id ∈ pendingSyncIds (cmd_decay 5 100 false 200 storeC10w).store)) ∧
    (memC10w.id ∈ touchedIds (consolidationClusters simZero 1 storeC10w) →
      ∃ m2 ∈ (cmd_consolidate simZero 1 false 200 storeC10w).store.memories,
        m2.id = memC10w.id ∧ m2.updated_at = 200 ∧ m2.importance = memC10w.importance ∧
        (70 ≤ memC10w.importance →
          m2.id ∈ pendingSyncIds (cmd_consolidate simZero 1 false 200 storeC10w).store)) ∧
    (∀ r, cmd_duplicates simZero 1 false 200 storeC10w = Except.ok r →
      memC10w.id ∈ removedIdsD (dedupGroups simZero 1 storeC10w) →
      ∃ m2 ∈ r.store.memories,
        m2.id = memC10w.id ∧ m2.updated_at = 200 ∧ m2.importance = memC10w.importance ∧
        (70 ≤ memC10w.importance → m2.id ∈ pendingSyncIds r.store))) :=
  ⟨by decide, by decide, by decide, rfl, rfl,
    C10_maintenance_resync simZero 1 5 100 200 storeC10w memC10w "n1" 50
      (by decide) (by decide) rfl rfl (by decide)⟩

/-- **C10 counterexample**: a synced memory of importance exactly 70 is
touched by a decay step at the default rate 5 (its `updated_at` becomes the
current time), yet it does NOT re-enter the pending-sync set, because its
importance fell to 65 < 70. -/
theorem C10_decay_drops_pending_counterexample :
    (70 ≤ memC10x.importance) ∧ memC10x.synced_at = some 50 ∧
    memC10x.updated_at ≤ 50 ∧ memC10x.avs_node_id = some "n1" ∧
    (cmd_decay 5 100 false 200 storeC10x).memories_decayed = 1 ∧
    (cmd_decay 5 100 false 200 storeC10x).store.memories.map
      (fun m2 => (m2.id, m2.updated_at, m2.importance)) = [("m1", 200, 65)] ∧
    pendingSyncIds (cmd_decay 5 100 false 200 storeC10x).store = [] :=
  ⟨by decide, rfl, by decide, rfl, rfl, rfl, rfl⟩
